import Mathlib

/-!
Verification of the toric Weierstrass-form reducer
(sage/schemes/toric/weierstrass.py).

Polynomials of the ambient ring ℚ[x₀, x₁, …] are embedded shallowly as
lists of terms, a term being a rational coefficient together with an
exponent vector (one entry per generator, implicitly zero beyond the end
of the list).  The semantics of such a term list is the Mathlib
multivariate polynomial it denotes, via `toMv`; two term lists represent
the same ring element exactly when their `toMv` images coincide.
-/

namespace ToricW

open MvPolynomial

/-- Exponent vector of a monomial: entry `i` is the exponent of generator
`x i`; entries beyond the end of the list are implicitly `0`. -/
abbrev Exp := List ℕ

/-- A term of a polynomial: rational coefficient and exponent vector. -/
abbrev Tm := ℚ × Exp

/-- A polynomial, represented as a formal sum of terms.  List
concatenation is ring addition. -/
abbrev Poly := List Tm

/-- Pointwise sum of exponent vectors (monomial multiplication). -/
def expAdd : Exp → Exp → Exp
  | [], f => f
  | e, [] => e
  | a :: e, b :: f => (a + b) :: expAdd e f

/-- Pointwise (truncated) difference of exponent vectors: exact monomial
division whenever the second vector is pointwise below the first. -/
def expSub : Exp → Exp → Exp
  | e, [] => e
  | [], _ => []
  | a :: e, b :: f => (a - b) :: expSub e f

/-- The exponent vector of the monomial `x i ^ k`. -/
def expOfVar (i k : ℕ) : Exp := List.replicate i 0 ++ [k]

/-- Scalar multiple of a polynomial by a rational. -/
def smulQ (q : ℚ) (p : Poly) : Poly := p.map (fun t => (q * t.1, t.2))

/-- Product of two polynomials: bilinear expansion of the term lists. -/
def polyMul (p q : Poly) : Poly :=
  p.foldr (fun s acc => q.map (fun t => (s.1 * t.1, expAdd s.2 t.2)) ++ acc) []

instance : Add Poly := ⟨fun p q => p ++ q⟩

instance : Mul Poly := ⟨polyMul⟩

instance : Neg Poly := ⟨fun p => smulQ (-1) p⟩

instance : Sub Poly := ⟨fun p q => p + -q⟩

/-- The constant polynomial `q`. -/
def Qc (q : ℚ) : Poly := [(q, [])]

/-- Power of a polynomial. -/
def polyPow (p : Poly) : ℕ → Poly
  | 0 => Qc 1
  | n + 1 => p * polyPow p n

instance : Pow Poly ℕ := ⟨polyPow⟩

/-- Decidable extensional equality of exponent vectors (equality of the
denoted monomials, i.e. pointwise equality with zero padding). -/
def expEq (e f : Exp) : Bool :=
  (List.range (max e.length f.length)).all (fun i => e.getD i 0 == f.getD i 0)

/-- The ambient polynomial ring, `ℚ[x₀, x₁, …]`. -/
abbrev MvP := MvPolynomial ℕ ℚ

/-- Monomial denoted by the tail of an exponent vector starting at
generator `i`. -/
noncomputable def mAux : ℕ → Exp → MvP
  | _, [] => 1
  | i, a :: e => X i ^ a * mAux (i + 1) e

/-- Monomial denoted by an exponent vector. -/
noncomputable def monMv (e : Exp) : MvP := mAux 0 e

/-- Ring element denoted by a term list. -/
noncomputable def toMv (p : Poly) : MvP := (p.map (fun t => C t.1 * monMv t.2)).sum

/-- Finitely supported function denoted by the tail of an exponent vector
starting at position `i`. -/
noncomputable def expFAux : ℕ → Exp → (ℕ →₀ ℕ)
  | _, [] => 0
  | i, a :: e => Finsupp.single i a + expFAux (i + 1) e

/-- Finitely supported function denoted by an exponent vector. -/
noncomputable def expF (e : Exp) : ℕ →₀ ℕ := expFAux 0 e

/-- Total coefficient of a polynomial at a given monomial: the
coefficient of the denoted ring element. -/
def coeffOf (p : Poly) (e : Exp) : ℚ :=
  (p.map (fun t => if expEq t.2 e then t.1 else 0)).sum

/-- Add a single term into a list of collected terms, merging with the
entry for the same monomial when present. -/
def addTermNF : Poly → ℚ → Exp → Poly
  | [], c, e => [(c, e)]
  | (d, f) :: rest, c, e =>
    if expEq f e then (d + c, f) :: rest else (d, f) :: addTermNF rest c e

/-- Normal form of a term list: like terms collected, zero terms
dropped. -/
def nf (p : Poly) : Poly :=
  (p.foldl (fun acc t => addTermNF acc t.1 t.2) []).filter (fun t => !(t.1 == 0))

/-- Ring-element zero test, as used by the source for comparisons with
zero (a Sage polynomial is zero iff its normal form has no terms). -/
def isZeroP (p : Poly) : Bool := (nf p).isEmpty

/-- Pairwise distinctness of the denoted monomials of a term list. -/
def KeysNodup (q : Poly) : Prop := (q.map (fun t => expF t.2)).Nodup

/-- Projection of an exponent vector onto the positions of the listed
generators (the key tuple `v`). -/
def projE (vars : List ℕ) (e : Exp) : List ℕ := vars.map (fun i => e.getD i 0)

/-- Python dict keyed by integer tuples, in insertion order. -/
abbrev Buckets := List (List ℕ × Poly)

/-- Add one term under the given key, appending to the entry already
present for that key, or creating a new last entry (`result[v] =
result.get(v, zero) + term`). -/
def bucketAdd (key : List ℕ) (t : Tm) : Buckets → Buckets
  | [] => [(key, [t])]
  | (k, v) :: rest =>
    if k = key then (k, v ++ [t]) :: rest else (k, v) :: bucketAdd key t rest

/-- Accumulate all terms of a polynomial into a dict, keyed by `key` and
transformed by `tr`. -/
def bucketize (key : Tm → List ℕ) (tr : Tm → Tm) (p : Poly) : Buckets :=
  p.foldl (fun acc t => bucketAdd (key t) (tr t) acc) []

/-- Dict lookup. -/
def lookupB (k : List ℕ) : Buckets → Option Poly
  | [] => none
  | (k', v) :: rest => if k' = k then some v else lookupB k rest

/-- Dict key list. -/
def keysB (b : Buckets) : List (List ℕ) := b.map (fun kv => kv.1)

/-- `some` on a nonempty list, `none` on the empty one. -/
def optSome (l : Poly) : Option Poly := if l = [] then none else some l

/-- Remove the entry with the given key, returning its value (or the
empty sum if absent) and the remaining dict. -/
def popBucket (key : List ℕ) : Buckets → Poly × Buckets
  | [] => ([], [])
  | (k, v) :: rest =>
    if k = key then (v, rest)
    else match popBucket key rest with
      | (r1, r2) => (r1, (k, v) :: r2)

/-- Divide a polynomial by the monomial `m` (exact division in the use
sites: every term of `q` is divisible by `m`). -/
def divByMon (m : Exp) (q : Poly) : Poly := q.map (fun t => (t.1, expSub t.2 m))

/-- Pop the requested monomials in order, collecting their (divided-out)
dict entries, with the empty sum for an absent key. -/
def popAll (vars : List ℕ) : List Exp → Buckets → List Poly × Buckets
  | [], b => ([], b)
  | m :: ms, b =>
    match popBucket (projE vars m) b with
    | (v, rest) =>
      match popAll vars ms rest with
      | (rs, rem) => (divByMon m v :: rs, rem)

/-- The failure conditions of the reducer. -/
inductive WErr where
  | NotHomogeneous (weights : List ℤ)
  | UnexpectedMonomials (remaining : Buckets)
  | TooManyOrFewVariables
  | NotReflexive
  | UndefinedJInvariant
  deriving DecidableEq

/-- Embedding of `_extract_coefficients`: accumulate the terms of the
polynomial into a dict keyed by the exponents of the named variables,
pop the entry of each requested monomial in order (zero default, the
monomial divided out), and fail on any remaining entries. -/
def _extract_coefficients (p : Poly) (monomials : List Exp) (vars : List ℕ) :
    Except WErr (List Poly) :=
  if ((popAll vars monomials (bucketize (fun t => projE vars t.2) (fun t => t) p)).2).isEmpty
  then .ok (popAll vars monomials (bucketize (fun t => projE vars t.2) (fun t => t) p)).1
  else .error (.UnexpectedMonomials
    (popAll vars monomials (bucketize (fun t => projE vars t.2) (fun t => t) p)).2)

/-- The dict entries left over after all requested monomials have been
serviced. -/
def extractRemaining (p : Poly) (monomials : List Exp) (vars : List ℕ) : Buckets :=
  (bucketize (fun t => projE vars t.2) (fun t => t) p).filter
    (fun kv => decide (kv.1 ∉ monomials.map (projE vars)))

/-- Exponent vectors of the terms of a polynomial
(`polynomial.exponents()`). -/
def exponentsOf (p : Poly) : List Exp := p.map (fun t => t.2)

/-- Weighted degree of an exponent vector: sum of
`e[variable_indices[i]] * weights[i]`. -/
def weightedDegree (vars : List ℕ) (weights : List ℤ) (e : Exp) : ℤ :=
  ((vars.zip weights).map (fun vw => (e.getD vw.1 0 : ℤ) * vw.2)).sum

/-- Loop of `_check_homogeneity`: compare the weighted degree of every
term against the first one seen. -/
def homogLoop (vars : List ℕ) (weights : List ℤ) :
    List Exp → Option ℤ → Except WErr Unit
  | [], _ => .ok ()
  | e :: es, none => homogLoop vars weights es (some (weightedDegree vars weights e))
  | e :: es, some t =>
    if weightedDegree vars weights e = t then homogLoop vars weights es (some t)
    else .error (.NotHomogeneous weights)

/-- Embedding of `_check_homogeneity`.  The loop starts from an empty
running value: the source (weierstrass.py line 550) re-binds its local
name `total_weight` to `None` before the loop, so the explicitly
supplied required total weight is never consulted. -/
def _check_homogeneity (p : Poly) (vars : List ℕ) (weights : List ℤ)
    (total_weight : Option ℤ) : Except WErr Unit :=
  homogLoop vars weights (exponentsOf p) none

/-- Largest exponent-vector length occurring in the polynomial. -/
def maxExpLen (p : Poly) : ℕ := p.foldr (fun t acc => max t.2.length acc) 0

/-- The generators occurring in the polynomial
(`polynomial.variables()`), in ring order. -/
def varsOf (p : Poly) : List ℕ :=
  (List.range (maxExpLen p)).filter
    (fun i => p.any (fun t => decide (t.2.getD i 0 ≠ 0)))

/-- Embedding of `_check_polynomial_P2`: three variables get the
`(1,1,1)` homogeneity check, two variables are taken as inhomogeneous
coordinates, anything else fails. -/
def _check_polynomial_P2 (cubic : Poly) (vars? : Option (List ℕ)) :
    Except WErr (ℕ × ℕ × Option ℕ) :=
  match vars?.getD (varsOf cubic) with
  | [x, y, z] =>
    match _check_homogeneity cubic [x, y, z] [1, 1, 1] (some 3) with
    | .error e => .error e
    | .ok _ => .ok (x, y, some z)
  | [x, y] => .ok (x, y, none)
  | _ => .error .TooManyOrFewVariables

/-- Embedding of `_check_polynomial_P1xP1`: four variables get the two
biquadric homogeneity checks, two variables are spread as
`[x0, None, x1, None]`, anything else fails. -/
def _check_polynomial_P1xP1 (biquadric : Poly) (vars? : Option (List ℕ)) :
    Except WErr (ℕ × Option ℕ × ℕ × Option ℕ) :=
  match vars?.getD (varsOf biquadric) with
  | [x0, x1, y0, y1] =>
    match _check_homogeneity biquadric [x0, x1, y0, y1] [1, 1, 0, 0] (some 2) with
    | .error e => .error e
    | .ok _ =>
      match _check_homogeneity biquadric [x0, x1, y0, y1] [0, 0, 1, 1] (some 2) with
      | .error e => .error e
      | .ok _ => .ok (x0, some x1, y0, some y1)
  | [v0, v1] => .ok (v0, none, v1, none)
  | _ => .error .TooManyOrFewVariables

/-- Embedding of `_check_polynomial_P2_112`: four variables get the two
weighted homogeneity checks, two variables are taken inhomogeneous,
anything else fails. -/
def _check_polynomial_P2_112 (polynomial : Poly) (vars? : Option (List ℕ)) :
    Except WErr (ℕ × ℕ × Option ℕ × Option ℕ) :=
  match vars?.getD (varsOf polynomial) with
  | [x, y, z, t] =>
    match _check_homogeneity polynomial [x, y, z, t] [1, 0, 1, -2] (some 0) with
    | .error e => .error e
    | .ok _ =>
      match _check_homogeneity polynomial [x, y, z, t] [0, 1, 0, 1] (some 2) with
      | .error e => .error e
      | .ok _ => .ok (x, y, some z, some t)
  | [v0, v1] => .ok (v0, v1, none, none)
  | _ => .error .TooManyOrFewVariables

/-- Embedding of `_partial_discriminant`: extract the coefficients `c`
of `(y1^2, y0*y1, y0^2)` (of `(1, y0, y0^2)` in the inhomogeneous case)
and return `c[1]^2 - 4*c[0]*c[2]`. -/
def _partial_discriminant (quadric : Poly) (y0 : ℕ) (y1 : Option ℕ) :
    Except WErr Poly :=
  match y1 with
  | none =>
    match _extract_coefficients quadric [[], expOfVar y0 1, expOfVar y0 2] [y0] with
    | .error e => .error e
    | .ok c => .ok ((c.getD 1 []) ^ 2 - Qc 4 * ((c.getD 0 []) * (c.getD 2 [])))
  | some y1 =>
    match _extract_coefficients quadric
        [expOfVar y1 2, expAdd (expOfVar y0 1) (expOfVar y1 1), expOfVar y0 2]
        [y0, y1] with
    | .error e => .error e
    | .ok c => .ok ((c.getD 1 []) ^ 2 - Qc 4 * ((c.getD 0 []) * (c.getD 2 [])))

/-- Zero out the positions of the listed generators, starting the
position count at `i`: the residual monomial after exact division by the
projected variable part. -/
def residAux (vars : List ℕ) : ℕ → Exp → Exp
  | _, [] => []
  | i, a :: e => (if i ∈ vars then 0 else a) :: residAux vars (i + 1) e

/-- The residual monomial of a term: the named variables divided out. -/
def residual (vars : List ℕ) (e : Exp) : Exp := residAux vars 0 e

/-- Embedding of `Newton_polytope_vars_coeffs`: dict from projected
exponent tuples to accumulated coefficients, the residual monomial
factor folded in. -/
def Newton_polytope_vars_coeffs (p : Poly) (vars : List ℕ) : Buckets :=
  bucketize (fun t => projE vars t.2) (fun t => (t.1, residual vars t.2)) p

/-- The ten standard ternary-cubic monomials, in the coefficient order
`a30, a21, a12, a03, a20, a11, a02, a10, a01, a00` (the third coordinate
is dropped when absent: inhomogeneous form). -/
def ternaryCubicBasis (x y : ℕ) (z : Option ℕ) : List Exp :=
  match z with
  | some z =>
    [expOfVar x 3, expAdd (expOfVar x 2) (expOfVar y 1),
     expAdd (expOfVar x 1) (expOfVar y 2), expOfVar y 3,
     expAdd (expOfVar x 2) (expOfVar z 1),
     expAdd (expOfVar x 1) (expAdd (expOfVar y 1) (expOfVar z 1)),
     expAdd (expOfVar y 2) (expOfVar z 1),
     expAdd (expOfVar x 1) (expOfVar z 2),
     expAdd (expOfVar y 1) (expOfVar z 2), expOfVar z 3]
  | none =>
    [expOfVar x 3, expAdd (expOfVar x 2) (expOfVar y 1),
     expAdd (expOfVar x 1) (expOfVar y 2), expOfVar y 3,
     expOfVar x 2, expAdd (expOfVar x 1) (expOfVar y 1),
     expOfVar y 2, expOfVar x 1, expOfVar y 1, []]

set_option maxHeartbeats 2000000 in
/-- Modelled from the spec (section 4.6): the first component of the
pair returned by the external ternary-cubic invariant engine pipeline,
i.e. `27*S` for the Aronhold invariant `S` of the cubic.  The closed
form is transcribed verbatim from the generic-coefficient doctest of
`WeierstrassForm_P2` in the source (weierstrass.py lines 700-707). -/
def fPolyP2 (a30 a21 a12 a03 a20 a11 a02 a10 a01 a00 : Poly) : Poly :=
    Qc (-1/48) * (a11^4) +
    Qc (1/6) * (a20 * a11^2 * a02) +
    Qc (-1/3) * (a20^2 * a02^2) +
    Qc (-1/2) * (a03 * a20 * a11 * a10) +
    Qc (1/6) * (a12 * a11^2 * a10) +
    Qc (1/3) * (a12 * a20 * a02 * a10) +
    Qc (-1/2) * (a21 * a11 * a02 * a10) +
    Qc (1) * (a30 * a02^2 * a10) +
    Qc (-1/3) * (a12^2 * a10^2) +
    Qc (1) * (a21 * a03 * a10^2) +
    Qc (1) * (a03 * a20^2 * a01) +
    Qc (-1/2) * (a12 * a20 * a11 * a01) +
    Qc (1/6) * (a21 * a11^2 * a01) +
    Qc (1/3) * (a21 * a20 * a02 * a01) +
    Qc (-1/2) * (a30 * a11 * a02 * a01) +
    Qc (1/3) * (a21 * a12 * a10 * a01) +
    Qc (-3) * (a30 * a03 * a10 * a01) +
    Qc (-1/3) * (a21^2 * a01^2) +
    Qc (1) * (a30 * a12 * a01^2) +
    Qc (1) * (a12^2 * a20 * a00) +
    Qc (-3) * (a21 * a03 * a20 * a00) +
    Qc (-1/2) * (a21 * a12 * a11 * a00) +
    Qc (9/2) * (a30 * a03 * a11 * a00) +
    Qc (1) * (a21^2 * a02 * a00) +
    Qc (-3) * (a30 * a12 * a02 * a00)

set_option maxHeartbeats 2000000 in
/-- Modelled from the spec (section 4.6): the second component of the
pair returned by the external ternary-cubic invariant engine pipeline,
i.e. `-(27/4)*T` for the Aronhold invariant `T` of the cubic.  The
closed form is transcribed verbatim from the generic-coefficient doctest
of `WeierstrassForm_P2` in the source (weierstrass.py lines 708-755). -/
def gPolyP2 (a30 a21 a12 a03 a20 a11 a02 a10 a01 a00 : Poly) : Poly :=
    Qc (1/864) * (a11^6) +
    Qc (-1/72) * (a20 * a11^4 * a02) +
    Qc (1/18) * (a20^2 * a11^2 * a02^2) +
    Qc (-2/27) * (a20^3 * a02^3) +
    Qc (1/24) * (a03 * a20 * a11^3 * a10) +
    Qc (-1/72) * (a12 * a11^4 * a10) +
    Qc (-1/6) * (a03 * a20^2 * a11 * a02 * a10) +
    Qc (1/36) * (a12 * a20 * a11^2 * a02 * a10) +
    Qc (1/24) * (a21 * a11^3 * a02 * a10) +
    Qc (1/9) * (a12 * a20^2 * a02^2 * a10) +
    Qc (-1/6) * (a21 * a20 * a11 * a02^2 * a10) +
    Qc (-1/12) * (a30 * a11^2 * a02^2 * a10) +
    Qc (1/3) * (a30 * a20 * a02^3 * a10) +
    Qc (1/4) * (a03^2 * a20^2 * a10^2) +
    Qc (-1/6) * (a12 * a03 * a20 * a11 * a10^2) +
    Qc (1/18) * (a12^2 * a11^2 * a10^2) +
    Qc (-1/12) * (a21 * a03 * a11^2 * a10^2) +
    Qc (1/9) * (a12^2 * a20 * a02 * a10^2) +
    Qc (-1/6) * (a21 * a03 * a20 * a02 * a10^2) +
    Qc (-1/6) * (a21 * a12 * a11 * a02 * a10^2) +
    Qc (1) * (a30 * a03 * a11 * a02 * a10^2) +
    Qc (1/4) * (a21^2 * a02^2 * a10^2) +
    Qc (-2/3) * (a30 * a12 * a02^2 * a10^2) +
    Qc (-2/27) * (a12^3 * a10^3) +
    Qc (1/3) * (a21 * a12 * a03 * a10^3) +
    Qc (-1) * (a30 * a03^2 * a10^3) +
    Qc (-1/12) * (a03 * a20^2 * a11^2 * a01) +
    Qc (1/24) * (a12 * a20 * a11^3 * a01) +
    Qc (-1/72) * (a21 * a11^4 * a01) +
    Qc (1/3) * (a03 * a20^3 * a02 * a01) +
    Qc (-1/6) * (a12 * a20^2 * a11 * a02 * a01) +
    Qc (1/36) * (a21 * a20 * a11^2 * a02 * a01) +
    Qc (1/24) * (a30 * a11^3 * a02 * a01) +
    Qc (1/9) * (a21 * a20^2 * a02^2 * a01) +
    Qc (-1/6) * (a30 * a20 * a11 * a02^2 * a01) +
    Qc (-1/6) * (a12 * a03 * a20^2 * a10 * a01) +
    Qc (-1/6) * (a12^2 * a20 * a11 * a10 * a01) +
    Qc (5/6) * (a21 * a03 * a20 * a11 * a10 * a01) +
    Qc (1/36) * (a21 * a12 * a11^2 * a10 * a01) +
    Qc (-3/4) * (a30 * a03 * a11^2 * a10 * a01) +
    Qc (1/18) * (a21 * a12 * a20 * a02 * a10 * a01) +
    Qc (-3/2) * (a30 * a03 * a20 * a02 * a10 * a01) +
    Qc (-1/6) * (a21^2 * a11 * a02 * a10 * a01) +
    Qc (5/6) * (a30 * a12 * a11 * a02 * a10 * a01) +
    Qc (-1/6) * (a30 * a21 * a02^2 * a10 * a01) +
    Qc (1/9) * (a21 * a12^2 * a10^2 * a01) +
    Qc (-2/3) * (a21^2 * a03 * a10^2 * a01) +
    Qc (1) * (a30 * a12 * a03 * a10^2 * a01) +
    Qc (1/4) * (a12^2 * a20^2 * a01^2) +
    Qc (-2/3) * (a21 * a03 * a20^2 * a01^2) +
    Qc (-1/6) * (a21 * a12 * a20 * a11 * a01^2) +
    Qc (1) * (a30 * a03 * a20 * a11 * a01^2) +
    Qc (1/18) * (a21^2 * a11^2 * a01^2) +
    Qc (-1/12) * (a30 * a12 * a11^2 * a01^2) +
    Qc (1/9) * (a21^2 * a20 * a02 * a01^2) +
    Qc (-1/6) * (a30 * a12 * a20 * a02 * a01^2) +
    Qc (-1/6) * (a30 * a21 * a11 * a02 * a01^2) +
    Qc (1/4) * (a30^2 * a02^2 * a01^2) +
    Qc (1/9) * (a21^2 * a12 * a10 * a01^2) +
    Qc (-2/3) * (a30 * a12^2 * a10 * a01^2) +
    Qc (1) * (a30 * a21 * a03 * a10 * a01^2) +
    Qc (-2/27) * (a21^3 * a01^3) +
    Qc (1/3) * (a30 * a21 * a12 * a01^3) +
    Qc (-1) * (a30^2 * a03 * a01^3) +
    Qc (-1) * (a03^2 * a20^3 * a00) +
    Qc (1) * (a12 * a03 * a20^2 * a11 * a00) +
    Qc (-1/12) * (a12^2 * a20 * a11^2 * a00) +
    Qc (-3/4) * (a21 * a03 * a20 * a11^2 * a00) +
    Qc (1/24) * (a21 * a12 * a11^3 * a00) +
    Qc (5/8) * (a30 * a03 * a11^3 * a00) +
    Qc (-2/3) * (a12^2 * a20^2 * a02 * a00) +
    Qc (1) * (a21 * a03 * a20^2 * a02 * a00) +
    Qc (5/6) * (a21 * a12 * a20 * a11 * a02 * a00) +
    Qc (-3/2) * (a30 * a03 * a20 * a11 * a02 * a00) +
    Qc (-1/12) * (a21^2 * a11^2 * a02 * a00) +
    Qc (-3/4) * (a30 * a12 * a11^2 * a02 * a00) +
    Qc (-2/3) * (a21^2 * a20 * a02^2 * a00) +
    Qc (1) * (a30 * a12 * a20 * a02^2 * a00) +
    Qc (1) * (a30 * a21 * a11 * a02^2 * a00) +
    Qc (-1) * (a30^2 * a02^3 * a00) +
    Qc (1/3) * (a12^3 * a20 * a10 * a00) +
    Qc (-3/2) * (a21 * a12 * a03 * a20 * a10 * a00) +
    Qc (9/2) * (a30 * a03^2 * a20 * a10 * a00) +
    Qc (-1/6) * (a21 * a12^2 * a11 * a10 * a00) +
    Qc (1) * (a21^2 * a03 * a11 * a10 * a00) +
    Qc (-3/2) * (a30 * a12 * a03 * a11 * a10 * a00) +
    Qc (-1/6) * (a21^2 * a12 * a02 * a10 * a00) +
    Qc (1) * (a30 * a12^2 * a02 * a10 * a00) +
    Qc (-3/2) * (a30 * a21 * a03 * a02 * a10 * a00) +
    Qc (-1/6) * (a21 * a12^2 * a20 * a01 * a00) +
    Qc (1) * (a21^2 * a03 * a20 * a01 * a00) +
    Qc (-3/2) * (a30 * a12 * a03 * a20 * a01 * a00) +
    Qc (-1/6) * (a21^2 * a12 * a11 * a01 * a00) +
    Qc (1) * (a30 * a12^2 * a11 * a01 * a00) +
    Qc (-3/2) * (a30 * a21 * a03 * a11 * a01 * a00) +
    Qc (1/3) * (a21^3 * a02 * a01 * a00) +
    Qc (-3/2) * (a30 * a21 * a12 * a02 * a01 * a00) +
    Qc (9/2) * (a30^2 * a03 * a02 * a01 * a00) +
    Qc (1/4) * (a21^2 * a12^2 * a00^2) +
    Qc (-1) * (a30 * a12^3 * a00^2) +
    Qc (-1) * (a21^3 * a03 * a00^2) +
    Qc (9/2) * (a30 * a21 * a12 * a03 * a00^2) +
    Qc (-27/4) * (a30^2 * a03^2 * a00^2)

set_option maxHeartbeats 2000000 in
/-- Modelled from the spec (section 4.6): the Aronhold invariant `S` of
a ternary cubic, homogeneous of degree 4 in the ten coefficients,
normalized so that `WeierstrassForm_P2` returns first component `27*S`
(the closed form of `27*S` is the one printed by the source doctest). -/
def S_invariant (a30 a21 a12 a03 a20 a11 a02 a10 a01 a00 : ℚ) : ℚ :=
  (1/27) *
    ( -1/48*a11^4 + 1/6*a20*a11^2*a02 - 1/3*a20^2*a02^2 - 1/2*a03*a20*a11*a10
      + 1/6*a12*a11^2*a10 + 1/3*a12*a20*a02*a10 - 1/2*a21*a11*a02*a10 +
      a30*a02^2*a10 - 1/3*a12^2*a10^2 + a21*a03*a10^2 + a03*a20^2*a01 -
      1/2*a12*a20*a11*a01 + 1/6*a21*a11^2*a01 + 1/3*a21*a20*a02*a01 -
      1/2*a30*a11*a02*a01 + 1/3*a21*a12*a10*a01 - 3*a30*a03*a10*a01 -
      1/3*a21^2*a01^2 + a30*a12*a01^2 + a12^2*a20*a00 - 3*a21*a03*a20*a00 -
      1/2*a21*a12*a11*a00 + 9/2*a30*a03*a11*a00 + a21^2*a02*a00 -
      3*a30*a12*a02*a00 )

set_option maxHeartbeats 2000000 in
/-- Modelled from the spec (section 4.6): the Aronhold invariant `T` of
a ternary cubic, homogeneous of degree 6 in the ten coefficients,
normalized so that `WeierstrassForm_P2` returns second component
`-(27/4)*T` (the closed form of that product is the one printed by the
source doctest). -/
def T_invariant (a30 a21 a12 a03 a20 a11 a02 a10 a01 a00 : ℚ) : ℚ :=
  (-4/27) *
    ( 1/864*a11^6 - 1/72*a20*a11^4*a02 + 1/18*a20^2*a11^2*a02^2 -
      2/27*a20^3*a02^3 + 1/24*a03*a20*a11^3*a10 - 1/72*a12*a11^4*a10 -
      1/6*a03*a20^2*a11*a02*a10 + 1/36*a12*a20*a11^2*a02*a10 +
      1/24*a21*a11^3*a02*a10 + 1/9*a12*a20^2*a02^2*a10 -
      1/6*a21*a20*a11*a02^2*a10 - 1/12*a30*a11^2*a02^2*a10 +
      1/3*a30*a20*a02^3*a10 + 1/4*a03^2*a20^2*a10^2 -
      1/6*a12*a03*a20*a11*a10^2 + 1/18*a12^2*a11^2*a10^2 -
      1/12*a21*a03*a11^2*a10^2 + 1/9*a12^2*a20*a02*a10^2 -
      1/6*a21*a03*a20*a02*a10^2 - 1/6*a21*a12*a11*a02*a10^2 +
      a30*a03*a11*a02*a10^2 + 1/4*a21^2*a02^2*a10^2 - 2/3*a30*a12*a02^2*a10^2
      - 2/27*a12^3*a10^3 + 1/3*a21*a12*a03*a10^3 - a30*a03^2*a10^3 -
      1/12*a03*a20^2*a11^2*a01 + 1/24*a12*a20*a11^3*a01 - 1/72*a21*a11^4*a01 +
      1/3*a03*a20^3*a02*a01 - 1/6*a12*a20^2*a11*a02*a01 +
      1/36*a21*a20*a11^2*a02*a01 + 1/24*a30*a11^3*a02*a01 +
      1/9*a21*a20^2*a02^2*a01 - 1/6*a30*a20*a11*a02^2*a01 -
      1/6*a12*a03*a20^2*a10*a01 - 1/6*a12^2*a20*a11*a10*a01 +
      5/6*a21*a03*a20*a11*a10*a01 + 1/36*a21*a12*a11^2*a10*a01 -
      3/4*a30*a03*a11^2*a10*a01 + 1/18*a21*a12*a20*a02*a10*a01 -
      3/2*a30*a03*a20*a02*a10*a01 - 1/6*a21^2*a11*a02*a10*a01 +
      5/6*a30*a12*a11*a02*a10*a01 - 1/6*a30*a21*a02^2*a10*a01 +
      1/9*a21*a12^2*a10^2*a01 - 2/3*a21^2*a03*a10^2*a01 +
      a30*a12*a03*a10^2*a01 + 1/4*a12^2*a20^2*a01^2 - 2/3*a21*a03*a20^2*a01^2
      - 1/6*a21*a12*a20*a11*a01^2 + a30*a03*a20*a11*a01^2 +
      1/18*a21^2*a11^2*a01^2 - 1/12*a30*a12*a11^2*a01^2 +
      1/9*a21^2*a20*a02*a01^2 - 1/6*a30*a12*a20*a02*a01^2 -
      1/6*a30*a21*a11*a02*a01^2 + 1/4*a30^2*a02^2*a01^2 +
      1/9*a21^2*a12*a10*a01^2 - 2/3*a30*a12^2*a10*a01^2 +
      a30*a21*a03*a10*a01^2 - 2/27*a21^3*a01^3 + 1/3*a30*a21*a12*a01^3 -
      a30^2*a03*a01^3 - a03^2*a20^3*a00 + a12*a03*a20^2*a11*a00 -
      1/12*a12^2*a20*a11^2*a00 - 3/4*a21*a03*a20*a11^2*a00 +
      1/24*a21*a12*a11^3*a00 + 5/8*a30*a03*a11^3*a00 - 2/3*a12^2*a20^2*a02*a00
      + a21*a03*a20^2*a02*a00 + 5/6*a21*a12*a20*a11*a02*a00 -
      3/2*a30*a03*a20*a11*a02*a00 - 1/12*a21^2*a11^2*a02*a00 -
      3/4*a30*a12*a11^2*a02*a00 - 2/3*a21^2*a20*a02^2*a00 +
      a30*a12*a20*a02^2*a00 + a30*a21*a11*a02^2*a00 - a30^2*a02^3*a00 +
      1/3*a12^3*a20*a10*a00 - 3/2*a21*a12*a03*a20*a10*a00 +
      9/2*a30*a03^2*a20*a10*a00 - 1/6*a21*a12^2*a11*a10*a00 +
      a21^2*a03*a11*a10*a00 - 3/2*a30*a12*a03*a11*a10*a00 -
      1/6*a21^2*a12*a02*a10*a00 + a30*a12^2*a02*a10*a00 -
      3/2*a30*a21*a03*a02*a10*a00 - 1/6*a21*a12^2*a20*a01*a00 +
      a21^2*a03*a20*a01*a00 - 3/2*a30*a12*a03*a20*a01*a00 -
      1/6*a21^2*a12*a11*a01*a00 + a30*a12^2*a11*a01*a00 -
      3/2*a30*a21*a03*a11*a01*a00 + 1/3*a21^3*a02*a01*a00 -
      3/2*a30*a21*a12*a02*a01*a00 + 9/2*a30^2*a03*a02*a01*a00 +
      1/4*a21^2*a12^2*a00^2 - a30*a12^3*a00^2 - a21^3*a03*a00^2 +
      9/2*a30*a21*a12*a03*a00^2 - 27/4*a30^2*a03^2*a00^2 )

/-- Embedding of `WeierstrassForm_P2`: check the cubic, extract its ten
standard coefficients (the extraction done inside the external
`invariant_theory.ternary_cubic`, following spec sections 4.5/4.6), and
return `(27*S, -(27/4)*T)`. -/
def WeierstrassForm_P2 (polynomial : Poly) (vars? : Option (List ℕ)) :
    Except WErr (Poly × Poly) :=
  match _check_polynomial_P2 polynomial vars? with
  | .error e => .error e
  | .ok (x, y, z) =>
    match _extract_coefficients polynomial (ternaryCubicBasis x y z)
        (match z with | some z => [x, y, z] | none => [x, y]) with
    | .error e => .error e
    | .ok cs =>
      .ok (fPolyP2 (cs.getD 0 []) (cs.getD 1 []) (cs.getD 2 []) (cs.getD 3 [])
            (cs.getD 4 []) (cs.getD 5 []) (cs.getD 6 []) (cs.getD 7 [])
            (cs.getD 8 []) (cs.getD 9 []),
          gPolyP2 (cs.getD 0 []) (cs.getD 1 []) (cs.getD 2 []) (cs.getD 3 [])
            (cs.getD 4 []) (cs.getD 5 []) (cs.getD 6 []) (cs.getD 7 [])
            (cs.getD 8 []) (cs.getD 9 []))

/-- The five binary-quartic monomials `x^4, x^3 z, x^2 z^2, x z^3, z^4`
(powers of `x` alone in the inhomogeneous case). -/
def binaryQuarticBasis (x : ℕ) (z : Option ℕ) : List Exp :=
  match z with
  | some z =>
    [expOfVar x 4, expAdd (expOfVar x 3) (expOfVar z 1),
     expAdd (expOfVar x 2) (expOfVar z 2), expAdd (expOfVar x 1) (expOfVar z 3),
     expOfVar z 4]
  | none => [expOfVar x 4, expOfVar x 3, expOfVar x 2, expOfVar x 1, []]

/-- Modelled from the spec (section 4.7): the coefficient extraction of
the external `invariant_theory.binary_quartic` (not part of this
repository), returning the binomially normalized coefficients
`(e0, e1, e2, e3, e4) = (c0, c1/4, c2/6, c3/4, c4)` of the quartic. -/
def binaryQuarticE (delta : Poly) (x : ℕ) (z : Option ℕ) :
    Except WErr (Poly × Poly × Poly × Poly × Poly) :=
  match _extract_coefficients delta (binaryQuarticBasis x z)
      (match z with | some z => [x, z] | none => [x]) with
  | .error e => .error e
  | .ok cs =>
    .ok (cs.getD 0 [], smulQ (1/4) (cs.getD 1 []), smulQ (1/6) (cs.getD 2 []),
      smulQ (1/4) (cs.getD 3 []), cs.getD 4 [])

/-- Modelled from the spec (section 4.7): the Eisenstein `D` invariant
of the external engine equals the classical invariant
`I = e0*e4 - 4*e1*e3 + 3*e2^2`; the convention is pinned by the concrete
doctest vectors of the source (see the worked values in the claim
theorems below). -/
def EisensteinD (e0 e1 e2 e3 e4 : Poly) : Poly :=
  e0 * e4 - Qc 4 * (e1 * e3) + Qc 3 * (e2 * e2)

/-- Modelled from the spec (section 4.7): the Eisenstein `E` invariant
of the external engine equals `-J` for the classical invariant
`J = e0*e2*e4 - e0*e3^2 - e1^2*e4 + 2*e1*e2*e3 - e2^3`; only the
composite `(-D/4, -(-E)/4)` returned by the reducers is observable, and
it is pinned by the concrete doctest vectors of the source. -/
def EisensteinE (e0 e1 e2 e3 e4 : Poly) : Poly :=
  -(e0 * e2 * e4 - e0 * e3 ^ 2 - e1 ^ 2 * e4 + Qc 2 * (e1 * e2 * e3) - e2 ^ 3)

/-- Embedding of `WeierstrassForm_P1xP1`: check the biquadric, take the
partial discriminant with respect to the second coordinate pair, and
return `(-g2/4, -g3/4)` for `g2 = D`, `g3 = -E` of the discriminant
quartic. -/
def WeierstrassForm_P1xP1 (biquadric : Poly) (vars? : Option (List ℕ)) :
    Except WErr (Poly × Poly) :=
  match _check_polynomial_P1xP1 biquadric vars? with
  | .error e => .error e
  | .ok (x, y, s, t) =>
    match _partial_discriminant biquadric s t with
    | .error e => .error e
    | .ok delta =>
      match binaryQuarticE delta x y with
      | .error e => .error e
      | .ok (e0, e1, e2, e3, e4) =>
        .ok (smulQ (-1/4) (EisensteinD e0 e1 e2 e3 e4),
          smulQ (-1/4) (Qc (-1) * EisensteinE e0 e1 e2 e3 e4))

/-- Embedding of `WeierstrassForm_P2_112`: check the weighted quartic,
take the partial discriminant with respect to `(y, t)`, and return
`(-g2/4, -g3/4)` for `g2 = D`, `g3 = -E` of the discriminant quartic in
`(x, z)`. -/
def WeierstrassForm_P2_112 (polynomial : Poly) (vars? : Option (List ℕ)) :
    Except WErr (Poly × Poly) :=
  match _check_polynomial_P2_112 polynomial vars? with
  | .error e => .error e
  | .ok (x, y, z, t) =>
    match _partial_discriminant polynomial y t with
    | .error e => .error e
    | .ok delta =>
      match binaryQuarticE delta x z with
      | .error e => .error e
      | .ok (e0, e1, e2, e3, e4) =>
        .ok (smulQ (-1/4) (EisensteinD e0 e1 e2 e3 e4),
          smulQ (-1/4) (Qc (-1) * EisensteinE e0 e1 e2 e3 e4))

/-- Identity of the three maximal reflexive polygons. -/
inductive PolygonTag where
  | P2
  | P1xP1
  | P2_112
  deriving DecidableEq

/-- Interface of the external polytope classifier (spec section 4.2;
`LatticePolytope_PPL.embed_in_reflexive_polytope`, not part of this
repository): given the support it either returns the polygon and the
affine embedding of each exponent tuple, or fails. -/
abbrev Classifier := List (List ℕ) → Option (PolygonTag × (List ℕ → ℕ × ℕ))

/-- Embedding of `Newton_polygon_embedded` combined with the polygon
dispatch data of `WeierstrassForm`: rewrite the polynomial through the
classifier's embedding in the first two listed variables. -/
def Newton_polygon_embedded (cls : Classifier) (p : Poly) (vars : List ℕ) :
    Except WErr (PolygonTag × Poly × (ℕ × ℕ)) :=
  match cls (keysB (Newton_polytope_vars_coeffs p vars)) with
  | none => .error .NotReflexive
  | some (tag, emb) =>
    .ok (tag,
      (Newton_polytope_vars_coeffs p vars).foldl
        (fun acc kv =>
          acc + kv.2 * [((1 : ℚ), expAdd (expOfVar (vars.getD 0 0) (emb kv.1).1)
            (expOfVar (vars.getD 1 0) (emb kv.1).2))])
        [],
      (vars.getD 0 0, vars.getD 1 0))

/-- Embedding of `WeierstrassForm` (single polynomial, no coordinate
transformation requested): extract the support, classify through the
external classifier, re-embed in the first two variables, and dispatch
on the returned polygon. -/
def WeierstrassForm (cls : Classifier) (polynomial : Poly)
    (vars? : Option (List ℕ)) : Except WErr (Poly × Poly) :=
  match Newton_polygon_embedded cls polynomial (vars?.getD (varsOf polynomial)) with
  | .error e => .error e
  | .ok (tag, q, xy) =>
    match tag with
    | .P2 => WeierstrassForm_P2 q (some [xy.1, xy.2])
    | .P1xP1 => WeierstrassForm_P1xP1 q (some [xy.1, xy.2])
    | .P2_112 => WeierstrassForm_P2_112 q (some [xy.1, xy.2])

/-- Embedding of `Discriminant`: `4*f^3 + 27*g^2` of the computed
Weierstrass coefficients. -/
def Discriminant (cls : Classifier) (polynomial : Poly)
    (vars? : Option (List ℕ)) : Except WErr Poly :=
  match WeierstrassForm cls polynomial vars? with
  | .error e => .error e
  | .ok (f, g) => .ok (Qc 4 * f ^ 3 + Qc 27 * g ^ 2)

/-- Value of the j-invariant: a ring fraction (numerator and
denominator - the shallow embedding of the exact division
`1728*4*f^3/disc`) or the distinguished infinity sentinel. -/
inductive JValue where
  | fin (num den : Poly)
  | inf
  deriving DecidableEq

/-- Embedding of `j_invariant`: `1728*4*f^3/disc` when the discriminant
is nonzero, the infinity sentinel when it is zero but `f` is not, and
the `UndefinedJInvariant` failure otherwise. -/
def j_invariant (cls : Classifier) (polynomial : Poly)
    (vars? : Option (List ℕ)) : Except WErr JValue :=
  match WeierstrassForm cls polynomial vars? with
  | .error e => .error e
  | .ok (f, g) =>
    if isZeroP (Qc 4 * f ^ 3 + Qc 27 * g ^ 2) = false then
      .ok (.fin (Qc 1728 * (Qc 4 * f ^ 3)) (Qc 4 * f ^ 3 + Qc 27 * g ^ 2))
    else if isZeroP f = false then .ok .inf
    else .error .UndefinedJInvariant


/-! ### Claim-facing auxiliary definitions -/

/-- The classical binary-quartic invariant `I` (spec section 4.7). -/
def Iquartic (e0 e1 e2 e3 e4 : ℚ) : ℚ := e0*e4 - 4*e1*e3 + 3*e2^2

/-- The classical binary-quartic invariant `J` (spec section 4.7). -/
def Jquartic (e0 e1 e2 e3 e4 : ℚ) : ℚ :=
  e0*e2*e4 - e0*e3^2 - e1^2*e4 + 2*e1*e2*e3 - e2^3

/-- The generic standard ternary cubic with rational coefficients, in
the three generators `x = 0`, `y = 1`, `z = 2`. -/
def genericCubic (a30 a21 a12 a03 a20 a11 a02 a10 a01 a00 : ℚ) : Poly :=
  [(a30, [3,0,0]), (a21, [2,1,0]), (a12, [1,2,0]), (a03, [0,3,0]),
   (a20, [2,0,1]), (a11, [1,1,1]), (a02, [0,2,1]),
   (a10, [1,0,2]), (a01, [0,1,2]), (a00, [0,0,3])]

/-- The generic standard biquadric with rational coefficients, in the
four generators `x0 = 0`, `x1 = 1`, `y0 = 2`, `y1 = 3`. -/
def genericBiquadric (a00 a10 a20 a01 a11 a21 a02 a12 a22 : ℚ) : Poly :=
  [(a00, [2,0,2,0]), (a10, [1,1,2,0]), (a20, [0,2,2,0]),
   (a01, [2,0,1,1]), (a11, [1,1,1,1]), (a21, [0,2,1,1]),
   (a02, [2,0,0,2]), (a12, [1,1,0,2]), (a22, [0,2,0,2])]

/-- The generic standard anticanonical hypersurface of `P^2[1,1,2]`
with rational coefficients, in the four generators `x = 0`, `y = 1`,
`z = 2`, `t = 3`. -/
def genericP2_112 (a40 a30 a20 a10 a00 a21 a11 a01 a02 : ℚ) : Poly :=
  [(a40, [4,0,0,2]), (a30, [3,0,1,2]), (a20, [2,0,2,2]), (a10, [1,0,3,2]),
   (a00, [0,0,4,2]), (a21, [2,1,0,1]), (a11, [1,1,1,1]), (a01, [0,1,2,1]),
   (a02, [0,2,0,0])]

/-- Exponent vector of the product of `var_i ^ v_i`. -/
def restoreExp (vars v : List ℕ) : Exp :=
  ((vars.zip v).map (fun iv => expOfVar iv.1 iv.2)).foldr expAdd []

/-- The reconstruction of the support-extractor mapping: sum over the
mapping of coefficient times the product of `var_i ^ exponent_i`. -/
def reconstructNP (b : Buckets) (vars : List ℕ) : Poly :=
  (b.map (fun kv => kv.2 * [((1 : ℚ), restoreExp vars kv.1)])).foldr
    (fun x acc => x ++ acc) []

/-- The inhomogeneous Fermat cubic `x^3 + y^3 + 1`. -/
def fermatCubic : Poly := [(1, [3,0]), (1, [0,3]), (1, [0,0])]

/-- A concrete classifier for inputs already supported on the standard
cubic triangle: identity embedding into the `P^2` polygon. -/
def clsP2id : Classifier := fun _ => some (.P2, fun e => (e.getD 0 0, e.getD 1 0))


/-- Decidable equality of results. -/
instance exceptDecEq (eps alpha : Type) [DecidableEq eps] [DecidableEq alpha] :
    DecidableEq (Except eps alpha) := fun x y =>
  match x, y with
  | .ok a, .ok b =>
    if h : a = b then .isTrue (congrArg Except.ok h)
    else .isFalse (fun hc => h (Except.ok.inj hc))
  | .error a, .error b =>
    if h : a = b then .isTrue (congrArg Except.error h)
    else .isFalse (fun hc => h (Except.error.inj hc))
  | .ok _, .error _ => .isFalse (fun hc => Except.noConfusion hc)
  | .error _, .ok _ => .isFalse (fun hc => Except.noConfusion hc)

/-! ### Theorems -/

theorem expAdd_nil (e : Exp) : expAdd e [] = e := by
  cases e <;> rfl

theorem expFAux_apply (i : ℕ) (e : Exp) (j : ℕ) :
    expFAux i e j = if i ≤ j then e.getD (j - i) 0 else 0 := by
  induction e generalizing i with
  | nil => simp [expFAux]
  | cons a e ih =>
    simp only [expFAux, Finsupp.add_apply, Finsupp.single_apply, ih]
    rcases lt_trichotomy i j with h | h | h
    · have h1 : i ≠ j := Nat.ne_of_lt h
      have h2 : i + 1 ≤ j := h
      have h3 : i ≤ j := Nat.le_of_lt h
      simp only [if_neg h1, if_pos h2, if_pos h3, zero_add]
      have : j - i = (j - (i + 1)) + 1 := by omega
      rw [this]
      rfl
    · subst h
      simp [Nat.not_succ_le_self]
    · have h1 : i ≠ j := (Nat.ne_of_lt h).symm
      have h2 : ¬ (i + 1 ≤ j) := by omega
      have h3 : ¬ (i ≤ j) := by omega
      simp [h1, h2, h3]

theorem expF_apply (e : Exp) (j : ℕ) : expF e j = e.getD j 0 := by
  simp [expF, expFAux_apply]

theorem mAux_eq_monomial (i : ℕ) (e : Exp) :
    mAux i e = monomial (expFAux i e) 1 := by
  induction e generalizing i with
  | nil => simp [mAux, expFAux]
  | cons a e ih =>
    rw [mAux, ih, X_pow_eq_monomial, monomial_mul, one_mul, expFAux]

theorem monMv_eq_monomial (e : Exp) : monMv e = monomial (expF e) 1 := by
  rw [monMv, mAux_eq_monomial, expF]

theorem getD_expAdd (e f : Exp) (i : ℕ) :
    (expAdd e f).getD i 0 = e.getD i 0 + f.getD i 0 := by
  induction e generalizing f i with
  | nil => simp [expAdd]
  | cons a e ih =>
    cases f with
    | nil => simp [expAdd]
    | cons b f =>
      cases i with
      | zero => simp [expAdd]
      | succ i => simpa [expAdd] using ih f i

theorem expF_expAdd (e f : Exp) : expF (expAdd e f) = expF e + expF f := by
  ext j
  rw [Finsupp.add_apply, expF_apply, expF_apply, expF_apply, getD_expAdd]

theorem monMv_expAdd (e f : Exp) : monMv (expAdd e f) = monMv e * monMv f := by
  rw [monMv_eq_monomial, monMv_eq_monomial, monMv_eq_monomial, expF_expAdd,
    monomial_mul, one_mul]

theorem expF_ext_iff (e f : Exp) :
    expF e = expF f ↔ ∀ i, e.getD i 0 = f.getD i 0 := by
  constructor
  · intro h i
    have := congrArg (fun g => g i) h
    simpa [expF_apply] using this
  · intro h
    ext i
    rw [expF_apply, expF_apply, h i]

theorem getD_eq_zero_of_le (e : Exp) {i : ℕ} (h : e.length ≤ i) :
    e.getD i 0 = 0 := by
  rw [List.getD_eq_default]
  exact h

theorem expEq_iff (e f : Exp) : expEq e f = true ↔ ∀ i, e.getD i 0 = f.getD i 0 := by
  unfold expEq
  rw [List.all_eq_true]
  constructor
  · intro h i
    by_cases hi : i < max e.length f.length
    · have := h i (List.mem_range.mpr hi)
      simpa using this
    · push_neg at hi
      rw [getD_eq_zero_of_le e (le_trans (le_max_left _ _) hi),
        getD_eq_zero_of_le f (le_trans (le_max_right _ _) hi)]
  · intro h i _
    simpa using h i

theorem expEq_iff_expF (e f : Exp) : expEq e f = true ↔ expF e = expF f := by
  rw [expEq_iff, expF_ext_iff]

@[simp]
theorem toMv_nil : toMv ([] : Poly) = 0 := rfl

@[simp]
theorem toMv_cons (t : Tm) (p : Poly) :
    toMv (t :: p) = C t.1 * monMv t.2 + toMv p := by
  simp [toMv]

@[simp]
theorem toMv_append (p q : Poly) : toMv (p ++ q) = toMv p + toMv q := by
  simp [toMv]

theorem toMv_add (p q : Poly) : toMv (p + q) = toMv p + toMv q :=
  toMv_append p q

@[simp]
theorem toMv_smulQ (q : ℚ) (p : Poly) : toMv (smulQ q p) = C q * toMv p := by
  induction p with
  | nil => simp [smulQ]
  | cons t p ih =>
    simp only [smulQ, List.map_cons, toMv_cons] at *
    rw [ih]
    ring_nf
    rw [C_mul]
    ring

theorem toMv_scaleTerm (c : ℚ) (e : Exp) (q : Poly) :
    toMv (q.map (fun t => (c * t.1, expAdd e t.2))) = C c * monMv e * toMv q := by
  induction q with
  | nil => simp
  | cons t q ih =>
    simp only [List.map_cons, toMv_cons, ih, monMv_expAdd, C_mul]
    ring

@[simp]
theorem toMv_mul (p q : Poly) : toMv (p * q) = toMv p * toMv q := by
  show toMv (polyMul p q) = _
  induction p with
  | nil => simp [polyMul]
  | cons t p ih =>
    simp only [polyMul, List.foldr_cons, toMv_append, toMv_cons] at *
    rw [ih, toMv_scaleTerm]
    ring

@[simp]
theorem toMv_Qc (q : ℚ) : toMv (Qc q) = C q := by
  simp [Qc, monMv, mAux]

@[simp]
theorem toMv_neg (p : Poly) : toMv (-p) = -toMv p := by
  show toMv (smulQ (-1) p) = _
  simp

@[simp]
theorem toMv_sub (p q : Poly) : toMv (p - q) = toMv p - toMv q := by
  show toMv (p + -q) = _
  rw [toMv_add, toMv_neg]
  ring

@[simp]
theorem toMv_pow (p : Poly) (n : ℕ) : toMv (p ^ n) = toMv p ^ n := by
  show toMv (polyPow p n) = _
  induction n with
  | zero => simp [polyPow]
  | succ n ih =>
    show toMv (p * polyPow p n) = _
    rw [toMv_mul, ih]
    ring

theorem monMv_congr {e f : Exp} (h : expEq e f = true) : monMv e = monMv f := by
  rw [monMv_eq_monomial, monMv_eq_monomial, (expEq_iff_expF e f).mp h]

theorem coeff_toMv (p : Poly) (s : ℕ →₀ ℕ) :
    coeff s (toMv p) = (p.map (fun t => if expF t.2 = s then t.1 else 0)).sum := by
  classical
  induction p with
  | nil => simp
  | cons t p ih =>
    rw [toMv_cons, coeff_add, ih, List.map_cons, List.sum_cons,
      monMv_eq_monomial, C_mul_monomial, mul_one, coeff_monomial]

theorem coeffOf_eq_coeff (p : Poly) (e : Exp) :
    coeffOf p e = coeff (expF e) (toMv p) := by
  classical
  rw [coeff_toMv, coeffOf]
  congr 1
  apply List.map_congr_left
  intro t _
  by_cases h : expEq t.2 e = true
  · rw [if_pos h, if_pos ((expEq_iff_expF _ _).mp h)]
  · rw [if_neg h, if_neg (fun hc => h ((expEq_iff_expF _ _).mpr hc))]

theorem toMv_addTermNF (acc : Poly) (c : ℚ) (e : Exp) :
    toMv (addTermNF acc c e) = toMv acc + C c * monMv e := by
  induction acc with
  | nil => simp [addTermNF]
  | cons t acc ih =>
    obtain ⟨d, f⟩ := t
    rw [addTermNF]
    by_cases h : expEq f e = true
    · rw [if_pos h, toMv_cons, toMv_cons, monMv_congr h]
      simp only [C_add]
      ring
    · rw [if_neg (by simpa using h), toMv_cons, toMv_cons, ih]
      ring

theorem toMv_nfFold (p : Poly) (acc : Poly) :
    toMv (p.foldl (fun acc t => addTermNF acc t.1 t.2) acc) = toMv acc + toMv p := by
  induction p generalizing acc with
  | nil => simp
  | cons t p ih =>
    rw [List.foldl_cons, ih, toMv_addTermNF, toMv_cons]
    ring

theorem toMv_filter_nonzero (p : Poly) :
    toMv (p.filter (fun t => !(t.1 == 0))) = toMv p := by
  induction p with
  | nil => rfl
  | cons t p ih =>
    rw [List.filter_cons]
    by_cases h : t.1 = 0
    · simp [h, ih]
    · rw [if_pos (by simp [h]), toMv_cons, ih, toMv_cons]

theorem toMv_nf (p : Poly) : toMv (nf p) = toMv p := by
  rw [nf, toMv_filter_nonzero, toMv_nfFold]
  simp

theorem addTermNF_keys_mem (acc : Poly) (c : ℚ) (e : Exp) :
    ∀ s ∈ (addTermNF acc c e).map (fun t => expF t.2),
      s ∈ acc.map (fun t => expF t.2) ∨ s = expF e := by
  induction acc with
  | nil => simp [addTermNF]
  | cons t acc ih =>
    obtain ⟨d, f⟩ := t
    rw [addTermNF]
    by_cases h : expEq f e = true
    · rw [if_pos h]
      intro s hs
      simp only [List.map_cons, List.mem_cons] at hs ⊢
      tauto
    · rw [if_neg (by simpa using h)]
      intro s hs
      simp only [List.map_cons, List.mem_cons] at hs ⊢
      rcases hs with h1 | h2
      · tauto
      · rcases ih s h2 with h3 | h3 <;> tauto

theorem addTermNF_keysNodup (acc : Poly) (c : ℚ) (e : Exp)
    (h : KeysNodup acc) : KeysNodup (addTermNF acc c e) := by
  induction acc with
  | nil => simp [addTermNF, KeysNodup]
  | cons t acc ih =>
    obtain ⟨d, f⟩ := t
    rw [KeysNodup] at h
    simp only [List.map_cons, List.nodup_cons] at h
    rw [addTermNF]
    by_cases hm : expEq f e = true
    · rw [if_pos hm]
      rw [KeysNodup]
      simp only [List.map_cons, List.nodup_cons]
      exact h
    · rw [if_neg (by simpa using hm)]
      rw [KeysNodup]
      simp only [List.map_cons, List.nodup_cons]
      refine ⟨?_, ih h.2⟩
      intro hmem
      rcases addTermNF_keys_mem acc c e _ hmem with h1 | h1
      · exact h.1 h1
      · exact hm (((expEq_iff_expF f e).mpr h1))

theorem nfFold_keysNodup (p : Poly) (acc : Poly) (h : KeysNodup acc) :
    KeysNodup (p.foldl (fun acc t => addTermNF acc t.1 t.2) acc) := by
  induction p generalizing acc with
  | nil => exact h
  | cons t p ih =>
    rw [List.foldl_cons]
    exact ih _ (addTermNF_keysNodup _ _ _ h)

theorem keysNodup_filter (p : Poly) (pred : Tm → Bool) (h : KeysNodup p) :
    KeysNodup (p.filter pred) := by
  rw [KeysNodup]
  exact List.Nodup.sublist ((List.filter_sublist p).map (fun t => expF t.2)) h

theorem nf_keysNodup (p : Poly) : KeysNodup (nf p) := by
  rw [nf]
  exact keysNodup_filter _ _ (nfFold_keysNodup p [] (by simp [KeysNodup]))

theorem nf_coeff_ne_zero (p : Poly) : ∀ t ∈ nf p, t.1 ≠ 0 := by
  intro t ht
  rw [nf] at ht
  have := List.of_mem_filter ht
  simpa using this

/-- A term list with pairwise-distinct monomials and nonzero
coefficients denotes a nonzero ring element. -/
theorem toMv_ne_zero (q : Poly) (hne : q ≠ [])
    (hc : ∀ t ∈ q, t.1 ≠ 0) (hk : KeysNodup q) : toMv q ≠ 0 := by
  classical
  obtain ⟨t, rest, rfl⟩ := List.exists_cons_of_ne_nil hne
  intro hzero
  have hcoeff := congrArg (coeff (expF t.2)) hzero
  rw [coeff_toMv] at hcoeff
  simp only [List.map_cons, List.sum_cons, if_pos rfl, coeff_zero] at hcoeff
  rw [KeysNodup] at hk
  simp only [List.map_cons, List.nodup_cons] at hk
  have hrest : ((rest.map (fun s => if expF s.2 = expF t.2 then s.1 else 0)).sum) = 0 := by
    have : ∀ x ∈ rest.map (fun s => if expF s.2 = expF t.2 then s.1 else 0), x = 0 := by
      intro x hx
      simp only [List.mem_map] at hx
      obtain ⟨s, hs, rfl⟩ := hx
      rw [if_neg]
      intro hc2
      exact hk.1 (by
        rw [← hc2]
        exact List.mem_map_of_mem (fun u => expF u.2) hs)
    exact List.sum_eq_zero this
  rw [hrest, add_zero] at hcoeff
  exact hc t (by simp) hcoeff

theorem isZeroP_iff (p : Poly) : isZeroP p = true ↔ toMv p = 0 := by
  constructor
  · intro h
    rw [← toMv_nf]
    rw [isZeroP, List.isEmpty_iff] at h
    rw [h, toMv_nil]
  · intro h
    by_contra hne
    rw [isZeroP, List.isEmpty_iff] at hne
    exact toMv_ne_zero (nf p) hne (nf_coeff_ne_zero p) (nf_keysNodup p)
      (by rw [toMv_nf, h])

theorem lookupB_bucketAdd_self (k : List ℕ) (t : Tm) (b : Buckets) :
    lookupB k (bucketAdd k t b) = some ((lookupB k b).getD [] ++ [t]) := by
  induction b with
  | nil => simp [bucketAdd, lookupB]
  | cons kv b ih =>
    obtain ⟨k', v⟩ := kv
    rw [bucketAdd]
    by_cases h : k' = k
    · subst h
      rw [if_pos rfl, lookupB, if_pos rfl, lookupB, if_pos rfl, Option.getD_some]
    · rw [if_neg h, lookupB, if_neg h, lookupB, if_neg h, ih]

theorem lookupB_bucketAdd_ne (k k' : List ℕ) (t : Tm) (b : Buckets)
    (h : k' ≠ k) : lookupB k (bucketAdd k' t b) = lookupB k b := by
  induction b with
  | nil => simp [bucketAdd, lookupB, h]
  | cons kv b ih =>
    obtain ⟨k'', v⟩ := kv
    rw [bucketAdd]
    by_cases h2 : k'' = k'
    · subst h2
      rw [if_pos rfl, lookupB, if_neg h, lookupB, if_neg h]
    · rw [if_neg h2, lookupB, lookupB]
      by_cases h3 : k'' = k
      · rw [if_pos h3, if_pos h3]
      · rw [if_neg h3, if_neg h3, ih]

theorem lookupB_bucketizeAux (key : Tm → List ℕ) (tr : Tm → Tm) (p : Poly)
    (acc : Buckets) (k : List ℕ) :
    lookupB k (p.foldl (fun acc t => bucketAdd (key t) (tr t) acc) acc)
      = match lookupB k acc with
        | some v => some (v ++ (p.filter (fun t => decide (key t = k))).map tr)
        | none => optSome ((p.filter (fun t => decide (key t = k))).map tr) := by
  induction p generalizing acc with
  | nil =>
    cases h : lookupB k acc <;> simp [h, optSome]
  | cons t p ih =>
    rw [List.foldl_cons, ih, List.filter_cons]
    by_cases h : key t = k
    · rw [if_pos (by simpa using h)]
      rw [show bucketAdd (key t) (tr t) acc = bucketAdd k (tr t) acc from by rw [h]]
      rw [lookupB_bucketAdd_self]
      cases h2 : lookupB k acc with
      | none => simp [h2, optSome]
      | some v => simp [h2]
    · rw [if_neg (by simpa using h), lookupB_bucketAdd_ne _ _ _ _ h]

theorem lookupB_bucketize (key : Tm → List ℕ) (tr : Tm → Tm) (p : Poly)
    (k : List ℕ) :
    lookupB k (bucketize key tr p)
      = optSome ((p.filter (fun t => decide (key t = k))).map tr) := by
  rw [bucketize, lookupB_bucketizeAux]
  rfl

theorem keysB_bucketAdd (k : List ℕ) (t : Tm) (b : Buckets) :
    keysB (bucketAdd k t b)
      = if k ∈ keysB b then keysB b else keysB b ++ [k] := by
  induction b with
  | nil => simp [bucketAdd, keysB]
  | cons kv b ih =>
    obtain ⟨k', v⟩ := kv
    rw [bucketAdd]
    by_cases h : k' = k
    · subst h
      rw [if_pos rfl]
      simp [keysB]
    · rw [if_neg h]
      simp only [keysB, List.map_cons] at ih ⊢
      rw [ih]
      have hiff : (k ∈ k' :: List.map (fun kv => kv.1) b) ↔ (k ∈ List.map (fun kv => kv.1) b) := by
        constructor
        · intro hc
          rcases List.mem_cons.mp hc with h4 | h4
          · exact absurd h4.symm h
          · exact h4
        · exact fun hc => List.mem_cons_of_mem _ hc
      by_cases h2 : k ∈ List.map (fun kv => kv.1) b
      · rw [if_pos h2, if_pos (hiff.mpr h2)]
      · rw [if_neg h2, if_neg (fun hc => h2 (hiff.mp hc))]
        simp

theorem keysB_nodup_bucketAdd (k : List ℕ) (t : Tm) (b : Buckets)
    (h : (keysB b).Nodup) : (keysB (bucketAdd k t b)).Nodup := by
  rw [keysB_bucketAdd]
  by_cases h2 : k ∈ keysB b
  · rw [if_pos h2]; exact h
  · rw [if_neg h2]
    rw [List.nodup_append]
    refine ⟨h, List.nodup_singleton k, ?_⟩
    intro a ha hb
    rw [List.mem_singleton] at hb
    exact h2 (hb ▸ ha)

theorem keysB_nodup_bucketizeAux (key : Tm → List ℕ) (tr : Tm → Tm)
    (p : Poly) (acc : Buckets) (h : (keysB acc).Nodup) :
    (keysB (p.foldl (fun acc t => bucketAdd (key t) (tr t) acc) acc)).Nodup := by
  induction p generalizing acc with
  | nil => exact h
  | cons t p ih =>
    rw [List.foldl_cons]
    exact ih _ (keysB_nodup_bucketAdd _ _ _ h)

theorem keysB_nodup_bucketize (key : Tm → List ℕ) (tr : Tm → Tm) (p : Poly) :
    (keysB (bucketize key tr p)).Nodup :=
  keysB_nodup_bucketizeAux key tr p [] (by simp [keysB])

theorem lookupB_eq_some_of_mem (b : Buckets) (h : (keysB b).Nodup)
    (k : List ℕ) (v : Poly) (hm : (k, v) ∈ b) : lookupB k b = some v := by
  induction b with
  | nil => simp at hm
  | cons kv b ih =>
    obtain ⟨k', v'⟩ := kv
    simp only [keysB, List.map_cons, List.nodup_cons] at h
    rcases List.mem_cons.mp hm with h1 | h1
    · injection h1 with h1a h1b
      rw [lookupB, if_pos h1a.symm, h1b]
    · rw [lookupB]
      by_cases h2 : k' = k
      · exfalso
        subst h2
        exact h.1 (by
          simp only [keysB, List.mem_map]
          exact ⟨(k', v), h1, rfl⟩)
      · rw [if_neg h2]
        exact ih (by simpa [keysB] using h.2) h1

theorem popBucket_cons (key k : List ℕ) (v : Poly) (rest : Buckets) :
    popBucket key ((k, v) :: rest)
      = if k = key then (v, rest)
        else ((popBucket key rest).1, (k, v) :: (popBucket key rest).2) := by
  rw [popBucket]

theorem popAll_cons (vars : List ℕ) (m : Exp) (ms : List Exp) (b : Buckets) :
    popAll vars (m :: ms) b
      = (divByMon m (popBucket (projE vars m) b).1 ::
          (popAll vars ms (popBucket (projE vars m) b).2).1,
        (popAll vars ms (popBucket (projE vars m) b).2).2) := by
  rw [popAll]

theorem popBucket_fst (k : List ℕ) (b : Buckets) :
    (popBucket k b).1 = (lookupB k b).getD [] := by
  induction b with
  | nil => simp [popBucket, lookupB]
  | cons kv b ih =>
    obtain ⟨k', v⟩ := kv
    rw [popBucket_cons, lookupB]
    by_cases h : k' = k
    · rw [if_pos h, if_pos h, Option.getD_some]
    · rw [if_neg h, if_neg h]
      exact ih

theorem filter_key_eq_self (b : Buckets) (k : List ℕ) (h : k ∉ keysB b) :
    b.filter (fun kv => decide (kv.1 ≠ k)) = b := by
  apply List.filter_eq_self.mpr
  intro kv hkv
  simp only [decide_eq_true_eq]
  intro hc
  exact h (by
    simp only [keysB, List.mem_map]
    exact ⟨kv, hkv, hc⟩)

theorem popBucket_snd (k : List ℕ) (b : Buckets) (h : (keysB b).Nodup) :
    (popBucket k b).2 = b.filter (fun kv => decide (kv.1 ≠ k)) := by
  induction b with
  | nil => simp [popBucket]
  | cons kv b ih =>
    obtain ⟨k', v⟩ := kv
    simp only [keysB, List.map_cons, List.nodup_cons] at h
    rw [popBucket_cons, List.filter_cons]
    by_cases h2 : k' = k
    · subst h2
      rw [if_pos rfl, if_neg (by simp)]
      exact (filter_key_eq_self b k' (by simpa [keysB] using h.1)).symm
    · rw [if_neg h2, if_pos (by simpa using h2)]
      show (k', v) :: (popBucket k b).2 = (k', v) :: b.filter _
      rw [ih (by simpa [keysB] using h.2)]

theorem lookupB_filter_ne (b : Buckets) (k0 k : List ℕ) :
    lookupB k (b.filter (fun kv => decide (kv.1 ≠ k0)))
      = if k = k0 then none else lookupB k b := by
  induction b with
  | nil => simp [lookupB]
  | cons kv b ih =>
    obtain ⟨k', v⟩ := kv
    rw [List.filter_cons]
    by_cases h : k' = k0
    · subst h
      rw [if_neg (by simp), ih]
      by_cases h2 : k = k'
      · rw [if_pos h2, if_pos h2]
      · rw [if_neg h2, if_neg h2, lookupB, if_neg (fun hc => h2 hc.symm)]
    · rw [if_pos (by simpa using h), lookupB]
      by_cases h2 : k' = k
      · rw [if_pos h2, if_neg (fun hc => h (h2.trans hc)), lookupB, if_pos h2]
      · rw [if_neg h2, ih]
        by_cases h3 : k = k0
        · rw [if_pos h3, if_pos h3]
        · rw [if_neg h3, if_neg h3, lookupB, if_neg h2]

theorem keysB_filter_sublist (b : Buckets) (pred : List ℕ × Poly → Bool) :
    (keysB (b.filter pred)).Sublist (keysB b) := by
  rw [keysB, keysB]
  exact (List.filter_sublist b).map (fun kv => kv.1)

theorem keysB_nodup_filter (b : Buckets) (pred : List ℕ × Poly → Bool)
    (h : (keysB b).Nodup) : (keysB (b.filter pred)).Nodup :=
  List.Nodup.sublist (keysB_filter_sublist b pred) h

theorem mem_keysB_iff (b : Buckets) (k : List ℕ) :
    k ∈ keysB b ↔ lookupB k b ≠ none := by
  induction b with
  | nil => simp [keysB, lookupB]
  | cons kv b ih =>
    obtain ⟨k', v⟩ := kv
    simp only [keysB, List.map_cons, List.mem_cons] at ih ⊢
    rw [lookupB]
    by_cases h : k' = k
    · subst h
      simp
    · rw [if_neg h]
      constructor
      · intro hc
        rcases hc with h1 | h1
        · exact absurd h1.symm h
        · exact ih.mp h1
      · intro hc
        exact Or.inr (ih.mpr hc)

theorem popAll_snd (vars : List ℕ) (ms : List Exp) (b : Buckets)
    (h : (keysB b).Nodup) :
    (popAll vars ms b).2
      = b.filter (fun kv => decide (kv.1 ∉ ms.map (projE vars))) := by
  induction ms generalizing b with
  | nil =>
    rw [popAll]
    exact (List.filter_eq_self.mpr (by simp)).symm
  | cons m ms ih =>
    rw [popAll_cons]
    rw [popBucket_snd _ _ h, ih _ (keysB_nodup_filter _ _ h), List.filter_filter]
    apply List.filter_congr
    intro kv _
    rw [← Bool.decide_and, decide_eq_decide]
    simp only [List.map_cons, List.mem_cons]
    tauto

theorem popAll_fst_length (vars : List ℕ) (ms : List Exp) (b : Buckets) :
    (popAll vars ms b).1.length = ms.length := by
  induction ms generalizing b with
  | nil => rfl
  | cons m ms ih => rw [popAll_cons]; simp [ih]

theorem optSome_getD (l : Poly) : (optSome l).getD [] = l := by
  rw [optSome]
  by_cases h : l = []
  · rw [if_pos h, h, Option.getD_none]
  · rw [if_neg h, Option.getD_some]

theorem popAll_fst_getD (vars : List ℕ) (ms : List Exp) (b : Buckets)
    (hms : (ms.map (projE vars)).Nodup) (hb : (keysB b).Nodup)
    (i : ℕ) (hi : i < ms.length) :
    (popAll vars ms b).1.getD i []
      = divByMon (ms.getD i [])
          ((lookupB (projE vars (ms.getD i [])) b).getD []) := by
  induction ms generalizing b i with
  | nil => exact absurd hi (by simp)
  | cons m ms ih =>
    simp only [List.map_cons, List.nodup_cons] at hms
    cases i with
    | zero =>
      rw [popAll_cons]
      simp only [List.getD_cons_zero]
      rw [popBucket_fst]
    | succ i =>
      rw [popAll_cons]
      simp only [List.getD_cons_succ]
      rw [popBucket_snd _ _ hb,
        ih _ hms.2 (keysB_nodup_filter _ _ hb) i (by simpa using hi),
        lookupB_filter_ne]
      rw [if_neg]
      intro hc
      apply hms.1
      rw [← hc]
      refine List.mem_map_of_mem (projE vars) ?_
      rw [List.getD_eq_getElem ms [] (by simpa using hi)]
      exact List.getElem_mem _

theorem extract_remaining_eq (p : Poly) (ms : List Exp) (vars : List ℕ) :
    (popAll vars ms (bucketize (fun t => projE vars t.2) (fun t => t) p)).2
      = extractRemaining p ms vars :=
  popAll_snd vars ms _ (keysB_nodup_bucketize _ _ _)

theorem mem_keysB_bucketize (key : Tm → List ℕ) (tr : Tm → Tm) (p : Poly)
    (k : List ℕ) :
    k ∈ keysB (bucketize key tr p) ↔ ∃ t ∈ p, key t = k := by
  rw [mem_keysB_iff, lookupB_bucketize, optSome]
  by_cases h : (p.filter (fun t => decide (key t = k))).map tr = []
  · rw [if_pos h]
    simp only [ne_eq, not_true_eq_false, false_iff, not_exists, not_and]
    intro t ht hc
    rw [List.map_eq_nil_iff, List.filter_eq_nil_iff] at h
    exact h t ht (by simpa using hc)
  · rw [if_neg h]
    simp only [ne_eq, reduceCtorEq, not_false_eq_true, true_iff]
    rw [List.map_eq_nil_iff] at h
    obtain ⟨t, ht⟩ := List.exists_mem_of_ne_nil _ h
    exact ⟨t, List.mem_of_mem_filter ht, by simpa using List.of_mem_filter ht⟩

theorem extractRemaining_empty_iff (p : Poly) (ms : List Exp) (vars : List ℕ) :
    extractRemaining p ms vars = []
      ↔ ∀ t ∈ p, projE vars t.2 ∈ ms.map (projE vars) := by
  rw [extractRemaining, List.filter_eq_nil_iff]
  constructor
  · intro h t ht
    have hk : projE vars t.2 ∈ keysB (bucketize (fun t => projE vars t.2) (fun t => t) p) :=
      (mem_keysB_bucketize _ _ p _).mpr ⟨t, ht, rfl⟩
    rw [keysB, List.mem_map] at hk
    obtain ⟨kv, hkv, hkeq⟩ := hk
    have := h kv hkv
    simp only [decide_eq_true_eq, not_not] at this
    rwa [← hkeq]
  · intro h kv hkv
    simp only [decide_eq_true_eq, not_not]
    have hk : kv.1 ∈ keysB (bucketize (fun t => projE vars t.2) (fun t => t) p) := by
      rw [keysB]
      exact List.mem_map_of_mem _ hkv
    obtain ⟨t, ht, hteq⟩ := (mem_keysB_bucketize _ _ p _).mp hk
    rw [← hteq]
    exact h t ht

theorem extract_ok_iff (p : Poly) (ms : List Exp) (vars : List ℕ) :
    (∃ cs, _extract_coefficients p ms vars = .ok cs)
      ↔ ∀ t ∈ p, projE vars t.2 ∈ ms.map (projE vars) := by
  rw [_extract_coefficients]
  by_cases h : ((popAll vars ms (bucketize (fun t => projE vars t.2) (fun t => t) p)).2).isEmpty
  · rw [if_pos h]
    simp only [Except.ok.injEq, exists_eq']
    rw [List.isEmpty_iff, extract_remaining_eq, extractRemaining_empty_iff] at h
    simpa using h
  · rw [if_neg h]
    simp only [reduceCtorEq, exists_false, false_iff]
    rw [List.isEmpty_iff, extract_remaining_eq] at h
    rw [← extractRemaining_empty_iff p ms vars]
    exact h

theorem extract_error_iff (p : Poly) (ms : List Exp) (vars : List ℕ) :
    (_extract_coefficients p ms vars
        = .error (.UnexpectedMonomials (extractRemaining p ms vars)))
      ↔ ¬ ∀ t ∈ p, projE vars t.2 ∈ ms.map (projE vars) := by
  rw [_extract_coefficients]
  by_cases h : ((popAll vars ms (bucketize (fun t => projE vars t.2) (fun t => t) p)).2).isEmpty
  · rw [if_pos h]
    have h2 := h
    rw [List.isEmpty_iff, extract_remaining_eq, extractRemaining_empty_iff] at h2
    simp only [reduceCtorEq, false_iff, not_not]
    exact h2
  · rw [if_neg h, extract_remaining_eq]
    have h2 := h
    rw [List.isEmpty_iff, extract_remaining_eq] at h2
    simp only [Except.error.injEq, WErr.UnexpectedMonomials.injEq, true_iff]
    rw [← extractRemaining_empty_iff p ms vars]
    exact h2

theorem extract_ok_spec (p : Poly) (ms : List Exp) (vars : List ℕ) (cs : List Poly)
    (h : _extract_coefficients p ms vars = .ok cs) :
    cs = (popAll vars ms (bucketize (fun t => projE vars t.2) (fun t => t) p)).1 := by
  rw [_extract_coefficients] at h
  by_cases h2 : ((popAll vars ms (bucketize (fun t => projE vars t.2) (fun t => t) p)).2).isEmpty
  · rw [if_pos h2] at h
    injection h with h
    exact h.symm
  · rw [if_neg h2] at h
    exact absurd h (by simp)

theorem extract_ok_length (p : Poly) (ms : List Exp) (vars : List ℕ) (cs : List Poly)
    (h : _extract_coefficients p ms vars = .ok cs) : cs.length = ms.length := by
  rw [extract_ok_spec p ms vars cs h]
  exact popAll_fst_length vars ms _

theorem extract_ok_getD (p : Poly) (ms : List Exp) (vars : List ℕ) (cs : List Poly)
    (h : _extract_coefficients p ms vars = .ok cs)
    (hms : (ms.map (projE vars)).Nodup) (i : ℕ) (hi : i < ms.length) :
    cs.getD i []
      = divByMon (ms.getD i [])
          ((p.filter (fun t => decide (projE vars t.2 = projE vars (ms.getD i [])))) ) := by
  rw [extract_ok_spec p ms vars cs h,
    popAll_fst_getD vars ms _ hms (keysB_nodup_bucketize _ _ _) i hi,
    lookupB_bucketize, optSome_getD, List.map_id']


theorem getD_expOfVar (i k j : ℕ) :
    (expOfVar i k).getD j 0 = if j = i then k else 0 := by
  induction i generalizing j with
  | zero =>
    cases j with
    | zero => simp [expOfVar]
    | succ j => simp [expOfVar]
  | succ i ih =>
    rw [expOfVar, List.replicate_succ]
    cases j with
    | zero => simp
    | succ j =>
      simp only [List.cons_append, List.getD_cons_succ]
      rw [← expOfVar, ih]
      by_cases h : j = i
      · rw [if_pos h, if_pos (by omega)]
      · rw [if_neg h, if_neg (by omega)]

/-- The empty monomial list has zero coefficient everywhere. -/
theorem coeffOf_nil (e : Exp) : coeffOf [] e = 0 := rfl

/-- Unfolding step of `coeffOf` at a matching head term. -/
theorem coeffOf_cons_true (f e : Exp) (h : expEq f e = true) (c : ℚ) (p : Poly) :
    coeffOf ((c, f) :: p) e = c + coeffOf p e := by
  simp [coeffOf, h]

/-- Unfolding step of `coeffOf` at a non-matching head term. -/
theorem coeffOf_cons_false (f e : Exp) (h : expEq f e = false) (c : ℚ) (p : Poly) :
    coeffOf ((c, f) :: p) e = coeffOf p e := by
  simp [coeffOf, h]

/-- The extractor succeeds as soon as every exponent vector of the
polynomial projects into the requested monomial keys. -/
theorem extract_ok_of_exponents (p : Poly) (ms : List Exp) (vars : List ℕ)
    (h : ∀ e ∈ exponentsOf p, projE vars e ∈ ms.map (projE vars)) :
    ∃ cs, _extract_coefficients p ms vars = .ok cs :=
  (extract_ok_iff p ms vars).mpr
    (fun t ht => h t.2 (List.mem_map_of_mem _ ht))

/-- The empty exponent vector in four variables denotes the unit monomial. -/
theorem monMv_zero4 : monMv [0, 0, 0, 0] = 1 := by
  simp [monMv, mAux]

/-- A singleton constant term in three variables denotes the constant. -/
theorem toMv_const3 (a : ℚ) : toMv [(a, [0, 0, 0])] = C a := by
  rw [toMv_cons, toMv_nil, add_zero]
  simp [monMv, mAux]

/-- C4: the homogeneity validator fails exactly on non-constant weighted
degree, but the explicitly supplied required total weight is ignored by
the code, which re-binds the parameter to None on entry (weierstrass.py
line 550): the result never depends on the supplied total weight, and
the polynomial `x^4`, homogeneous of weighted degree 4 under weights
`(1,1,1)`, passes the check even though the required total weight 3 was
supplied (contradicting the function's own docstring). -/
theorem check_homogeneity_ignores_total_weight :
    (∀ (p : Poly) (vars : List ℕ) (weights : List ℤ) (t t' : Option ℤ),
      _check_homogeneity p vars weights t = _check_homogeneity p vars weights t')
    ∧ _check_homogeneity [((1 : ℚ), [4])] [0, 1, 2] [1, 1, 1] (some 3) = .ok ()
    ∧ weightedDegree [0, 1, 2] [1, 1, 1] [4] = 4 ∧ (4 : ℤ) ≠ 3 := by
  exact ⟨fun p vars weights t t' => rfl, by decide, by decide, by decide⟩

/-- C9: supplying a variable list whose length is neither 2 nor the
family's full homogeneous count (3 for the cubic family, 4 for the
biquadric and weighted-quartic families) makes the family checker - and
with it the family entry point - fail with TooManyOrFewVariables. -/
theorem variable_count_check :
    (∀ (p : Poly) (vs : List ℕ), vs.length ≠ 2 → vs.length ≠ 3 →
        _check_polynomial_P2 p (some vs) = .error .TooManyOrFewVariables
        ∧ WeierstrassForm_P2 p (some vs) = .error .TooManyOrFewVariables)
    ∧ (∀ (p : Poly) (vs : List ℕ), vs.length ≠ 2 → vs.length ≠ 4 →
        (_check_polynomial_P1xP1 p (some vs) = .error .TooManyOrFewVariables
          ∧ WeierstrassForm_P1xP1 p (some vs) = .error .TooManyOrFewVariables)
        ∧ (_check_polynomial_P2_112 p (some vs) = .error .TooManyOrFewVariables
          ∧ WeierstrassForm_P2_112 p (some vs) = .error .TooManyOrFewVariables)) := by
  constructor
  · intro p vs h2 h3
    rcases vs with _ | ⟨a, _ | ⟨b, _ | ⟨c, _ | ⟨d, vs⟩⟩⟩⟩
    · exact ⟨rfl, rfl⟩
    · exact ⟨rfl, rfl⟩
    · exact absurd rfl h2
    · exact absurd rfl h3
    · exact ⟨rfl, rfl⟩
  · intro p vs h2 h4
    rcases vs with _ | ⟨a, _ | ⟨b, _ | ⟨c, _ | ⟨d, _ | ⟨e, vs⟩⟩⟩⟩⟩
    · exact ⟨⟨rfl, rfl⟩, rfl, rfl⟩
    · exact ⟨⟨rfl, rfl⟩, rfl, rfl⟩
    · exact absurd rfl h2
    · exact ⟨⟨rfl, rfl⟩, rfl, rfl⟩
    · exact absurd rfl h4
    · exact ⟨⟨rfl, rfl⟩, rfl, rfl⟩

theorem variable_count_check_witness :
    ([5] : List ℕ).length ≠ 2 ∧ ([5] : List ℕ).length ≠ 3
    ∧ ([5] : List ℕ).length ≠ 4
    ∧ (_check_polynomial_P2 [] (some [5]) = .error .TooManyOrFewVariables
        ∧ WeierstrassForm_P2 [] (some [5]) = .error .TooManyOrFewVariables)
    ∧ ((_check_polynomial_P1xP1 [] (some [5]) = .error .TooManyOrFewVariables
        ∧ WeierstrassForm_P1xP1 [] (some [5]) = .error .TooManyOrFewVariables)
      ∧ (_check_polynomial_P2_112 [] (some [5]) = .error .TooManyOrFewVariables
        ∧ WeierstrassForm_P2_112 [] (some [5]) = .error .TooManyOrFewVariables)) :=
  ⟨by decide, by decide, by decide,
    variable_count_check.1 [] [5] (by decide) (by decide),
    variable_count_check.2 [] [5] (by decide) (by decide)⟩

/-- C3 counterexample: the polynomial `y0` is at most quadratic in the
pair `(y0, y1)` (its degree in the pair is 1), yet `_partial_discriminant`
does not return a partial discriminant for it: the monomial `y0` lies
outside the requested basis `(y1^2, y0*y1, y0^2)`, so the coefficient
extractor raises UnexpectedMonomials. -/
theorem partial_discriminant_linear_term_fails :
    _partial_discriminant [((1 : ℚ), [1])] 0 (some 1)
      = .error (.UnexpectedMonomials [([1, 0], [((1 : ℚ), [1])])]) := by
  decide


/-- C3 (amended): for a polynomial that is homogeneous of degree exactly
2 in the pair `(y0, y1)` - or at most quadratic in the single variable
`y0` when `y1` is omitted - `_partial_discriminant` returns
`c1^2 - 4*c0*c2`, where `c2, c1, c0` are the coefficients of
`y1^2, y0*y1, y0^2` (of `1, y0, y0^2` in the inhomogeneous case)
extracted by the monomial coefficient extractor: the extraction result
is `(c[0], c[1], c[2]) = (c2, c1, c0)` in basis order and the returned
value is `c[1]^2 - 4*(c[0]*c[2])`. -/
theorem partial_discriminant_quadratic :
    (∀ (p : Poly) (y0 y1 : ℕ), y0 ≠ y1 →
      (∀ t ∈ p, t.2.getD y0 0 + t.2.getD y1 0 = 2) →
      ∃ c2 c1 c0,
        _extract_coefficients p
            [expOfVar y1 2, expAdd (expOfVar y0 1) (expOfVar y1 1), expOfVar y0 2]
            [y0, y1] = .ok [c2, c1, c0]
        ∧ _partial_discriminant p y0 (some y1)
            = .ok (c1 ^ 2 - Qc 4 * (c2 * c0)))
    ∧ (∀ (p : Poly) (y0 : ℕ),
      (∀ t ∈ p, t.2.getD y0 0 ≤ 2) →
      ∃ c2 c1 c0,
        _extract_coefficients p [[], expOfVar y0 1, expOfVar y0 2] [y0]
            = .ok [c2, c1, c0]
        ∧ _partial_discriminant p y0 none
            = .ok (c1 ^ 2 - Qc 4 * (c2 * c0))) := by
  constructor
  · intro p y0 y1 hne hdeg
    have hy1 : (y0 = y1) = False := by simp [hne]
    have hy2 : (y1 = y0) = False := by simp [Ne.symm hne]
    have hkeys : ([expOfVar y1 2, expAdd (expOfVar y0 1) (expOfVar y1 1),
        expOfVar y0 2].map (projE [y0, y1]))
        = [[0, 2], [1, 1], [2, 0]] := by
      simp only [projE, List.map_cons, List.map_nil, getD_expAdd, getD_expOfVar,
        hy1, hy2, if_false, if_true, eq_self_iff_true]
    obtain ⟨cs, hok⟩ := (extract_ok_iff p _ [y0, y1]).mpr (by
      intro t ht
      rw [hkeys]
      have hd := hdeg t ht
      have hc : (t.2.getD y0 0 = 0 ∧ t.2.getD y1 0 = 2)
          ∨ (t.2.getD y0 0 = 1 ∧ t.2.getD y1 0 = 1)
          ∨ (t.2.getD y0 0 = 2 ∧ t.2.getD y1 0 = 0) := by omega
      have hpe : projE [y0, y1] t.2 = [t.2.getD y0 0, t.2.getD y1 0] := by
        simp [projE]
      rcases hc with ⟨h1, h2⟩ | ⟨h1, h2⟩ | ⟨h1, h2⟩ <;>
        rw [hpe, h1, h2] <;> simp)
    obtain ⟨c2, c1, c0, rfl⟩ := List.length_eq_three.mp (extract_ok_length p _ _ cs hok)
    refine ⟨c2, c1, c0, hok, ?_⟩
    rw [_partial_discriminant, hok]
    rfl
  · intro p y0 hdeg
    obtain ⟨cs, hok⟩ := (extract_ok_iff p _ [y0]).mpr (by
      intro t ht
      have hd := hdeg t ht
      have hkeys : ([([] : Exp), expOfVar y0 1, expOfVar y0 2].map (projE [y0]))
          = [[0], [1], [2]] := by
        simp only [projE, List.map_cons, List.map_nil, getD_expOfVar,
          if_true, eq_self_iff_true]
        norm_num
      rw [hkeys]
      have hc : t.2.getD y0 0 = 0 ∨ t.2.getD y0 0 = 1 ∨ t.2.getD y0 0 = 2 := by omega
      have hpe : projE [y0] t.2 = [t.2.getD y0 0] := by simp [projE]
      rcases hc with h1 | h1 | h1 <;> rw [hpe, h1] <;> simp)
    obtain ⟨c2, c1, c0, rfl⟩ := List.length_eq_three.mp (extract_ok_length p _ _ cs hok)
    refine ⟨c2, c1, c0, hok, ?_⟩
    rw [_partial_discriminant, hok]
    rfl

theorem partial_discriminant_quadratic_witness :
    ((0 : ℕ) ≠ 1
      ∧ (∀ t ∈ ([((5 : ℚ), [2, 0]), ((7 : ℚ), [1, 1]), ((9 : ℚ), [0, 2])] : Poly),
          t.2.getD 0 0 + t.2.getD 1 0 = 2)
      ∧ ∃ c2 c1 c0,
          _extract_coefficients [((5 : ℚ), [2, 0]), ((7 : ℚ), [1, 1]), ((9 : ℚ), [0, 2])]
              [expOfVar 1 2, expAdd (expOfVar 0 1) (expOfVar 1 1), expOfVar 0 2]
              [0, 1] = .ok [c2, c1, c0]
          ∧ _partial_discriminant [((5 : ℚ), [2, 0]), ((7 : ℚ), [1, 1]), ((9 : ℚ), [0, 2])]
              0 (some 1) = .ok (c1 ^ 2 - Qc 4 * (c2 * c0)))
    ∧ ((∀ t ∈ ([((3 : ℚ), [1])] : Poly), t.2.getD 0 0 ≤ 2)
      ∧ ∃ c2 c1 c0,
          _extract_coefficients [((3 : ℚ), [1])] [[], expOfVar 0 1, expOfVar 0 2] [0]
              = .ok [c2, c1, c0]
          ∧ _partial_discriminant [((3 : ℚ), [1])] 0 none
              = .ok (c1 ^ 2 - Qc 4 * (c2 * c0))) :=
  ⟨⟨by decide, by decide,
      partial_discriminant_quadratic.1 _ 0 1 (by decide) (by decide)⟩,
    ⟨by decide, partial_discriminant_quadratic.2 _ 0 (by decide)⟩⟩

/-- C5: the coefficient extractor succeeds exactly when every term of
the polynomial projects into the requested monomial basis; on success it
returns one coefficient per requested monomial in request order, each
the matching accumulated entry with the monomial divided out - the
ring's zero (the empty sum) when the monomial is absent - and otherwise
it fails with UnexpectedMonomials naming exactly the residual
accumulated entries. -/
theorem extract_coefficients_spec :
    ∀ (p : Poly) (ms : List Exp) (vars : List ℕ),
      ((∃ cs, _extract_coefficients p ms vars = .ok cs)
        ↔ ∀ t ∈ p, projE vars t.2 ∈ ms.map (projE vars))
      ∧ (_extract_coefficients p ms vars
            = .error (.UnexpectedMonomials (extractRemaining p ms vars))
          ↔ ∃ t ∈ p, projE vars t.2 ∉ ms.map (projE vars))
      ∧ (∀ cs, _extract_coefficients p ms vars = .ok cs →
          cs.length = ms.length
          ∧ ((ms.map (projE vars)).Nodup → ∀ i, i < ms.length →
              cs.getD i []
                  = divByMon (ms.getD i [])
                      (p.filter (fun t =>
                        decide (projE vars t.2 = projE vars (ms.getD i []))))
              ∧ ((∀ t ∈ p, projE vars t.2 ≠ projE vars (ms.getD i [])) →
                  cs.getD i [] = []))) := by
  intro p ms vars
  refine ⟨extract_ok_iff p ms vars, ?_, ?_⟩
  · rw [extract_error_iff p ms vars]
    constructor
    · intro h
      push_neg at h
      exact h
    · intro ⟨t, ht, hnm⟩ hall
      exact hnm (hall t ht)
  · intro cs hok
    refine ⟨extract_ok_length p ms vars cs hok, ?_⟩
    intro hnd i hi
    have hv := extract_ok_getD p ms vars cs hok hnd i hi
    refine ⟨hv, ?_⟩
    intro habs
    rw [hv, List.filter_eq_nil_iff.mpr ?_]
    · rfl
    · intro t ht
      simp only [decide_eq_true_eq]
      exact habs t ht

theorem extract_coefficients_spec_witness :
    (∀ t ∈ ([((2 : ℚ), [1, 0]), ((3 : ℚ), [0, 1])] : Poly),
        projE [0, 1] t.2 ∈ ([[1, 0], [0, 1], [0, 0]] : List Exp).map (projE [0, 1]))
    ∧ (∃ cs, _extract_coefficients [((2 : ℚ), [1, 0]), ((3 : ℚ), [0, 1])]
        [[1, 0], [0, 1], [0, 0]] [0, 1] = .ok cs) :=
  ⟨by decide,
    (extract_coefficients_spec [((2 : ℚ), [1, 0]), ((3 : ℚ), [0, 1])]
        [[1, 0], [0, 1], [0, 0]] [0, 1]).1.mpr (by decide)⟩


theorem getD_residAux (vars : List ℕ) (e : Exp) (i j : ℕ) :
    (residAux vars i e).getD j 0 = if (i + j) ∈ vars then 0 else e.getD j 0 := by
  induction e generalizing i j with
  | nil => simp [residAux]
  | cons a e ih =>
    cases j with
    | zero => simp [residAux]
    | succ j =>
      rw [residAux, List.getD_cons_succ, List.getD_cons_succ, ih]
      have h : i + 1 + j = i + (j + 1) := by omega
      rw [h]

theorem getD_residual (vars : List ℕ) (e : Exp) (j : ℕ) :
    (residual vars e).getD j 0 = if j ∈ vars then 0 else e.getD j 0 := by
  rw [residual, getD_residAux, Nat.zero_add]

theorem getD_restoreExp (vars : List ℕ) (e : Exp) :
    vars.Nodup → ∀ j : ℕ,
      (restoreExp vars (projE vars e)).getD j 0
        = if j ∈ vars then e.getD j 0 else 0 := by
  induction vars with
  | nil =>
    intro _ j
    simp [restoreExp, projE]
  | cons i vars ih =>
    intro hnd j
    rw [List.nodup_cons] at hnd
    have hre : restoreExp (i :: vars) (projE (i :: vars) e)
        = expAdd (expOfVar i (e.getD i 0)) (restoreExp vars (projE vars e)) := rfl
    rw [hre, getD_expAdd, getD_expOfVar, ih hnd.2 j]
    by_cases h : j = i
    · subst h
      rw [if_pos rfl, if_neg hnd.1, add_zero, if_pos (List.mem_cons_self j vars)]
    · rw [if_neg h, zero_add]
      by_cases h2 : j ∈ vars
      · rw [if_pos h2, if_pos (List.mem_cons_of_mem _ h2)]
      · rw [if_neg h2, if_neg (by
          intro hc
          rcases List.mem_cons.mp hc with hc1 | hc1
          · exact h hc1
          · exact h2 hc1)]

theorem monMv_split (vars : List ℕ) (hnd : vars.Nodup) (e : Exp) :
    monMv e = monMv (residual vars e) * monMv (restoreExp vars (projE vars e)) := by
  rw [← monMv_expAdd, monMv_eq_monomial, monMv_eq_monomial]
  have hx : expF e
      = expF (expAdd (residual vars e) (restoreExp vars (projE vars e))) := by
    apply (expF_ext_iff _ _).mpr
    intro j
    rw [getD_expAdd, getD_residual, getD_restoreExp vars e hnd j]
    by_cases h : j ∈ vars
    · rw [if_pos h, if_pos h, zero_add]
    · rw [if_neg h, if_neg h, add_zero]
  rw [hx]

theorem toMv_single_mul (p : Poly) (r : Exp) :
    toMv (p * [((1 : ℚ), r)]) = toMv p * monMv r := by
  rw [toMv_mul, toMv_cons, toMv_nil, add_zero, map_one, one_mul]

theorem toMv_reconstruct_bucketAdd (vars : List ℕ) (b : Buckets)
    (k : List ℕ) (t : Tm) :
    toMv (reconstructNP (bucketAdd k t b) vars)
      = toMv (reconstructNP b vars)
        + C t.1 * monMv t.2 * monMv (restoreExp vars k) := by
  induction b with
  | nil =>
    show toMv ([t] * [((1 : ℚ), restoreExp vars k)] ++ []) = _
    rw [List.append_nil, toMv_single_mul, toMv_cons, toMv_nil]
    show _ = toMv (reconstructNP [] vars) + _
    rw [reconstructNP]
    simp only [List.map_nil, List.foldr_nil, toMv_nil]
    ring
  | cons kv b ih =>
    obtain ⟨k', v⟩ := kv
    rw [bucketAdd]
    by_cases h : k' = k
    · subst h
      rw [if_pos rfl]
      show toMv ((v ++ [t]) * [((1 : ℚ), restoreExp vars k')]
          ++ reconstructNP b vars) = _
      rw [toMv_append, toMv_single_mul, toMv_append, toMv_cons, toMv_nil]
      show _ = toMv (v * [((1 : ℚ), restoreExp vars k')]
          ++ reconstructNP b vars) + _
      rw [toMv_append, toMv_single_mul]
      ring
    · rw [if_neg h]
      show toMv (v * [((1 : ℚ), restoreExp vars k')]
          ++ reconstructNP (bucketAdd k t b) vars) = _
      rw [toMv_append, ih]
      show _ = toMv (v * [((1 : ℚ), restoreExp vars k')]
          ++ reconstructNP b vars) + _
      rw [toMv_append]
      ring

theorem toMv_reconstruct_fold (vars : List ℕ) (p : Poly) (acc : Buckets) :
    toMv (reconstructNP (p.foldl (fun acc t =>
        bucketAdd (projE vars t.2) (t.1, residual vars t.2) acc) acc) vars)
      = toMv (reconstructNP acc vars)
        + (p.map (fun t => C t.1 * monMv (residual vars t.2)
            * monMv (restoreExp vars (projE vars t.2)))).sum := by
  induction p generalizing acc with
  | nil => simp
  | cons t p ih =>
    rw [List.foldl_cons, ih, toMv_reconstruct_bucketAdd, List.map_cons,
      List.sum_cons]
    ring

/-- C6: for a duplicate-free variable list, the exponent-to-coefficient
mapping returned by the support extractor reconstructs the polynomial
exactly: summing coefficient times the product of `var_i ^ exponent_i`
over the mapping denotes the same ring element as the input. -/
theorem newton_polytope_reconstruct :
    ∀ (p : Poly) (vars : List ℕ), vars.Nodup →
      toMv (reconstructNP (Newton_polytope_vars_coeffs p vars) vars) = toMv p := by
  intro p vars hnd
  show toMv (reconstructNP (p.foldl (fun acc t =>
      bucketAdd (projE vars t.2) (t.1, residual vars t.2) acc) []) vars) = toMv p
  rw [toMv_reconstruct_fold]
  show toMv (reconstructNP [] vars) + _ = _
  rw [reconstructNP]
  simp only [List.map_nil, List.foldr_nil, toMv_nil, zero_add]
  induction p with
  | nil => simp
  | cons t p ih =>
    rw [List.map_cons, List.sum_cons, toMv_cons, ih, mul_assoc,
      ← monMv_split vars hnd]

theorem newton_polytope_reconstruct_witness :
    ([0, 1] : List ℕ).Nodup
    ∧ toMv (reconstructNP (Newton_polytope_vars_coeffs
          [((2 : ℚ), [1, 2, 1]), ((3 : ℚ), [0, 1])] [0, 1]) [0, 1])
        = toMv [((2 : ℚ), [1, 2, 1]), ((3 : ℚ), [0, 1])] :=
  ⟨by decide,
    newton_polytope_reconstruct [((2 : ℚ), [1, 2, 1]), ((3 : ℚ), [0, 1])] [0, 1]
      (by decide)⟩

theorem projE_eq_getD (vars : List ℕ) (e f : Exp)
    (h : projE vars e = projE vars f) :
    ∀ i ∈ vars, e.getD i 0 = f.getD i 0 := by
  induction vars with
  | nil =>
    intro i hi
    simp at hi
  | cons j vars ih =>
    simp only [projE, List.map_cons] at h
    injection h with h1 h2
    intro i hi
    rcases List.mem_cons.mp hi with rfl | hi2
    · exact h1
    · exact ih (by rw [projE, projE]; exact h2) i hi2

theorem keysNodup_iff_pairwise (q : Poly) :
    KeysNodup q ↔ q.Pairwise (fun s t => expEq s.2 t.2 = false) := by
  rw [KeysNodup]
  show (q.map (fun t => expF t.2)).Pairwise (fun a b => a ≠ b) ↔ _
  rw [List.pairwise_map]
  constructor
  · exact fun h => h.imp (fun hne => by
      rw [Bool.eq_false_iff]
      intro hc
      exact hne ((expEq_iff_expF _ _).mp hc))
  · exact fun h => h.imp (fun hf => by
      intro hc
      rw [Bool.eq_false_iff] at hf
      exact hf ((expEq_iff_expF _ _).mpr hc))


/-- C10: for a well-formed input polynomial (nonzero coefficients and
pairwise distinct monomials, the representation Sage maintains) and a
duplicate-free variable list, every coefficient value stored in the
mapping returned by the support extractor is a nonzero ring element:
distinct terms projecting to the same exponent tuple carry distinct
residual monomial factors, so their accumulated sum never cancels. -/
theorem newton_polytope_values_nonzero :
    ∀ (p : Poly) (vars : List ℕ),
      (∀ t ∈ p, t.1 ≠ 0) →
      p.Pairwise (fun s t => expEq s.2 t.2 = false) →
      vars.Nodup →
      ∀ kv ∈ Newton_polytope_vars_coeffs p vars, toMv kv.2 ≠ 0 := by
  intro p vars hc hpw hv kv hmem
  have hk : KeysNodup p := (keysNodup_iff_pairwise p).mpr hpw
  have hlk : lookupB kv.1 (Newton_polytope_vars_coeffs p vars) = some kv.2 :=
    lookupB_eq_some_of_mem _ (keysB_nodup_bucketize _ _ _) kv.1 kv.2 hmem
  rw [Newton_polytope_vars_coeffs, lookupB_bucketize, optSome] at hlk
  by_cases hl : ((p.filter (fun t => decide (projE vars t.2 = kv.1))).map
      (fun t => (t.1, residual vars t.2))) = []
  · rw [if_pos hl] at hlk
    exact absurd hlk (by simp)
  · rw [if_neg hl] at hlk
    have hval := (Option.some.inj hlk).symm
    rw [hval]
    apply toMv_ne_zero _ hl
    · intro t ht
      simp only [List.mem_map] at ht
      obtain ⟨s, hs, rfl⟩ := ht
      exact hc s (List.mem_of_mem_filter hs)
    · rw [KeysNodup, List.map_map]
      have hfilter : KeysNodup (p.filter (fun t => decide (projE vars t.2 = kv.1))) :=
        keysNodup_filter p _ hk
      rw [KeysNodup] at hfilter
      have hpair : (p.filter (fun t => decide (projE vars t.2 = kv.1))).Pairwise
          (fun a b => expF a.2 ≠ expF b.2) := by
        rw [← List.pairwise_map]
        exact hfilter
      have hproj : ∀ s ∈ p.filter (fun t => decide (projE vars t.2 = kv.1)),
          projE vars s.2 = kv.1 := by
        intro s hs
        have := List.of_mem_filter hs
        simpa using this
      show (List.map _ (p.filter (fun t => decide (projE vars t.2 = kv.1)))).Nodup
      rw [show ((fun t : Tm => expF t.2) ∘ fun t : Tm => (t.1, residual vars t.2))
          = fun t : Tm => expF (residual vars t.2) from rfl]
      show (List.map _ (p.filter (fun t => decide (projE vars t.2 = kv.1)))).Pairwise
        (fun a b => a ≠ b)
      rw [List.pairwise_map]
      refine List.Pairwise.imp_of_mem ?_ hpair
      intro a b ha hb hne hceq
      apply hne
      apply (expF_ext_iff _ _).mpr
      intro j
      by_cases hj : j ∈ vars
      · exact projE_eq_getD vars a.2 b.2
          ((hproj a ha).trans (hproj b hb).symm) j hj
      · have h1 := (expF_ext_iff _ _).mp hceq j
        rw [getD_residual, getD_residual, if_neg hj, if_neg hj] at h1
        exact h1

theorem newton_polytope_values_nonzero_witness :
    (∀ t ∈ ([((1 : ℚ), [1, 0]), ((1 : ℚ), [1, 1])] : Poly), t.1 ≠ 0)
    ∧ ([((1 : ℚ), [1, 0]), ((1 : ℚ), [1, 1])] : Poly).Pairwise
        (fun s t => expEq s.2 t.2 = false)
    ∧ ([0] : List ℕ).Nodup
    ∧ ∀ kv ∈ Newton_polytope_vars_coeffs
        [((1 : ℚ), [1, 0]), ((1 : ℚ), [1, 1])] [0], toMv kv.2 ≠ 0 :=
  ⟨by decide, by decide, by decide,
    newton_polytope_values_nonzero _ [0] (by decide) (by decide) (by decide)⟩


set_option maxHeartbeats 16000000 in
set_option maxRecDepth 100000 in
/-- C1: for every standard ternary cubic (generic rational coefficients
`a30 .. a00` on the ten cubic monomials in `x, y, z`), the Cubic-family
reducer `WeierstrassForm_P2` returns exactly the pair
`(f, g) = (27*S, -(27/4)*T)` where `S` and `T` are the Aronhold
invariants of the cubic; moreover `S` is homogeneous of degree 4 and `T`
of degree 6 in the ten coefficients. -/
theorem weierstrass_P2_aronhold :
    (∀ a30 a21 a12 a03 a20 a11 a02 a10 a01 a00 : ℚ,
      (WeierstrassForm_P2
          (genericCubic a30 a21 a12 a03 a20 a11 a02 a10 a01 a00)
          (some [0, 1, 2])).map (fun fg => (toMv fg.1, toMv fg.2))
        = .ok (C (27 * S_invariant a30 a21 a12 a03 a20 a11 a02 a10 a01 a00),
            C (-(27/4) * T_invariant a30 a21 a12 a03 a20 a11 a02 a10 a01 a00)))
    ∧ (∀ l a30 a21 a12 a03 a20 a11 a02 a10 a01 a00 : ℚ,
      S_invariant (l*a30) (l*a21) (l*a12) (l*a03) (l*a20) (l*a11) (l*a02)
          (l*a10) (l*a01) (l*a00)
        = l^4 * S_invariant a30 a21 a12 a03 a20 a11 a02 a10 a01 a00
      ∧ T_invariant (l*a30) (l*a21) (l*a12) (l*a03) (l*a20) (l*a11) (l*a02)
          (l*a10) (l*a01) (l*a00)
        = l^6 * T_invariant a30 a21 a12 a03 a20 a11 a02 a10 a01 a00) := by
  constructor
  · intro a30 a21 a12 a03 a20 a11 a02 a10 a01 a00
    have hwf : WeierstrassForm_P2
        (genericCubic a30 a21 a12 a03 a20 a11 a02 a10 a01 a00) (some [0, 1, 2])
        = .ok (fPolyP2 [(a30, [0,0,0])] [(a21, [0,0,0])] [(a12, [0,0,0])]
              [(a03, [0,0,0])] [(a20, [0,0,0])] [(a11, [0,0,0])] [(a02, [0,0,0])]
              [(a10, [0,0,0])] [(a01, [0,0,0])] [(a00, [0,0,0])],
            gPolyP2 [(a30, [0,0,0])] [(a21, [0,0,0])] [(a12, [0,0,0])]
              [(a03, [0,0,0])] [(a20, [0,0,0])] [(a11, [0,0,0])] [(a02, [0,0,0])]
              [(a10, [0,0,0])] [(a01, [0,0,0])] [(a00, [0,0,0])]) := rfl
    rw [hwf, Except.map]
    refine congrArg Except.ok (Prod.ext ?_ ?_)
    · simp only [fPolyP2, toMv_add, toMv_mul, toMv_pow, toMv_Qc, toMv_const3,
        ← C_mul, ← C_pow, ← C_add, C_inj, S_invariant]
      ring
    · simp only [gPolyP2, toMv_add, toMv_mul, toMv_pow, toMv_Qc, toMv_const3,
        ← C_mul, ← C_pow, ← C_add, C_inj, T_invariant]
      ring
  · intro l a30 a21 a12 a03 a20 a11 a02 a10 a01 a00
    constructor
    · simp only [S_invariant]
      ring
    · simp only [T_invariant]
      ring

set_option maxHeartbeats 16000000 in
set_option maxRecDepth 100000 in
/-- C2: for every polynomial accepted by the Biquadric-family reducer
`WeierstrassForm_P1xP1` (generic rational coefficients on the nine
biquadric monomials) and every polynomial accepted by the
WeightedQuartic-family reducer `WeierstrassForm_P2_112` (generic
coefficients on the nine weighted monomials), the returned pair is
`(f, g) = (-I/4, -J/4)` where `I` and `J` are the classical
binary-quartic invariants evaluated at the binomially normalized
coefficients `e0 .. e4` of the partial discriminant (pinned by the
`coeffOf` conjuncts: `e0, 4*e1, 6*e2, 4*e3, e4` are its quartic
coefficients); the two concrete doctest vectors of the source are
reproduced exactly. -/
theorem weierstrass_quartic_invariants :
    (∀ a00 a10 a20 a01 a11 a21 a02 a12 a22 : ℚ,
      ∃ d : Poly, ∃ e0 e1 e2 e3 e4 : ℚ,
        _partial_discriminant (genericBiquadric a00 a10 a20 a01 a11 a21 a02 a12 a22)
            2 (some 3) = .ok d
        ∧ coeffOf d [4, 0, 0, 0] = e0 ∧ coeffOf d [3, 1, 0, 0] = 4 * e1
        ∧ coeffOf d [2, 2, 0, 0] = 6 * e2 ∧ coeffOf d [1, 3, 0, 0] = 4 * e3
        ∧ coeffOf d [0, 4, 0, 0] = e4
        ∧ (WeierstrassForm_P1xP1 (genericBiquadric a00 a10 a20 a01 a11 a21 a02 a12 a22)
              (some [0, 1, 2, 3])).map (fun fg => (toMv fg.1, toMv fg.2))
            = .ok (C (-(Iquartic e0 e1 e2 e3 e4)/4), C (-(Jquartic e0 e1 e2 e3 e4)/4)))
    ∧ (∀ a40 a30 a20 a10 a00 a21 a11 a01 a02 : ℚ,
      ∃ d : Poly, ∃ e0 e1 e2 e3 e4 : ℚ,
        _partial_discriminant (genericP2_112 a40 a30 a20 a10 a00 a21 a11 a01 a02)
            1 (some 3) = .ok d
        ∧ coeffOf d [4, 0, 0, 0] = e0 ∧ coeffOf d [3, 0, 1, 0] = 4 * e1
        ∧ coeffOf d [2, 0, 2, 0] = 6 * e2 ∧ coeffOf d [1, 0, 3, 0] = 4 * e3
        ∧ coeffOf d [0, 0, 4, 0] = e4
        ∧ (WeierstrassForm_P2_112 (genericP2_112 a40 a30 a20 a10 a00 a21 a11 a01 a02)
              (some [0, 1, 2, 3])).map (fun fg => (toMv fg.1, toMv fg.2))
            = .ok (C (-(Iquartic e0 e1 e2 e3 e4)/4), C (-(Jquartic e0 e1 e2 e3 e4)/4)))
    ∧ (WeierstrassForm_P1xP1 (genericBiquadric 1 2 3 4 5 6 7 8 0)
          (some [0, 1, 2, 3])).map (fun fg => (toMv fg.1, toMv fg.2))
        = .ok (C (1581/16), C (-3529/32))
    ∧ (WeierstrassForm_P2_112 (genericP2_112 1 1 1 1 1 1 1 1 1)
          (some [0, 1, 2, 3])).map (fun fg => (toMv fg.1, toMv fg.2))
        = .ok (C (-97/48), C (17/864)) := by
  have hgenP1 : ∀ a00 a10 a20 a01 a11 a21 a02 a12 a22 : ℚ,
      _partial_discriminant (genericBiquadric a00 a10 a20 a01 a11 a21 a02 a12 a22) 2 (some 3)
        = .ok [((a01 * (a01 * 1)), [4, 0, 0, 0]),
          ((a01 * (a11 * 1)), [3, 1, 0, 0]),
          ((a01 * (a21 * 1)), [2, 2, 0, 0]),
          ((a11 * (a01 * 1)), [3, 1, 0, 0]),
          ((a11 * (a11 * 1)), [2, 2, 0, 0]),
          ((a11 * (a21 * 1)), [1, 3, 0, 0]),
          ((a21 * (a01 * 1)), [2, 2, 0, 0]),
          ((a21 * (a11 * 1)), [1, 3, 0, 0]),
          ((a21 * (a21 * 1)), [0, 4, 0, 0]),
          (((-1) * (4 * (a02 * a00))), [4, 0, 0, 0]),
          (((-1) * (4 * (a02 * a10))), [3, 1, 0, 0]),
          (((-1) * (4 * (a02 * a20))), [2, 2, 0, 0]),
          (((-1) * (4 * (a12 * a00))), [3, 1, 0, 0]),
          (((-1) * (4 * (a12 * a10))), [2, 2, 0, 0]),
          (((-1) * (4 * (a12 * a20))), [1, 3, 0, 0]),
          (((-1) * (4 * (a22 * a00))), [2, 2, 0, 0]),
          (((-1) * (4 * (a22 * a10))), [1, 3, 0, 0]),
          (((-1) * (4 * (a22 * a20))), [0, 4, 0, 0])]
      ∧ ((WeierstrassForm_P1xP1 (genericBiquadric a00 a10 a20 a01 a11 a21 a02 a12 a22)
            (some [0, 1, 2, 3])).map (fun fg => (toMv fg.1, toMv fg.2))
          = .ok (C (-(Iquartic (a01^2 - 4*(a02*a00)) ((2*(a01*a11) - 4*(a02*a10 + a12*a00))/4) ((a11^2 + 2*(a01*a21) - 4*(a02*a20 + a12*a10 + a22*a00))/6) ((2*(a11*a21) - 4*(a12*a20 + a22*a10))/4) (a21^2 - 4*(a22*a20)))/4),
              C (-(Jquartic (a01^2 - 4*(a02*a00)) ((2*(a01*a11) - 4*(a02*a10 + a12*a00))/4) ((a11^2 + 2*(a01*a21) - 4*(a02*a20 + a12*a10 + a22*a00))/6) ((2*(a11*a21) - 4*(a12*a20 + a22*a10))/4) (a21^2 - 4*(a22*a20)))/4))) := by
    intro a00 a10 a20 a01 a11 a21 a02 a12 a22
    have harith : (([(a01, [2, 0, 0, 0]), (a11, [1, 1, 0, 0]), (a21, [0, 2, 0, 0])] : Poly) ^ 2
          - Qc 4 * (([(a02, [2, 0, 0, 0]), (a12, [1, 1, 0, 0]), (a22, [0, 2, 0, 0])] : Poly)
              * [(a00, [2, 0, 0, 0]), (a10, [1, 1, 0, 0]), (a20, [0, 2, 0, 0])]))
        = [((a01 * (a01 * 1)), [4, 0, 0, 0]),
          ((a01 * (a11 * 1)), [3, 1, 0, 0]),
          ((a01 * (a21 * 1)), [2, 2, 0, 0]),
          ((a11 * (a01 * 1)), [3, 1, 0, 0]),
          ((a11 * (a11 * 1)), [2, 2, 0, 0]),
          ((a11 * (a21 * 1)), [1, 3, 0, 0]),
          ((a21 * (a01 * 1)), [2, 2, 0, 0]),
          ((a21 * (a11 * 1)), [1, 3, 0, 0]),
          ((a21 * (a21 * 1)), [0, 4, 0, 0]),
          (((-1) * (4 * (a02 * a00))), [4, 0, 0, 0]),
          (((-1) * (4 * (a02 * a10))), [3, 1, 0, 0]),
          (((-1) * (4 * (a02 * a20))), [2, 2, 0, 0]),
          (((-1) * (4 * (a12 * a00))), [3, 1, 0, 0]),
          (((-1) * (4 * (a12 * a10))), [2, 2, 0, 0]),
          (((-1) * (4 * (a12 * a20))), [1, 3, 0, 0]),
          (((-1) * (4 * (a22 * a00))), [2, 2, 0, 0]),
          (((-1) * (4 * (a22 * a10))), [1, 3, 0, 0]),
          (((-1) * (4 * (a22 * a20))), [0, 4, 0, 0])] := rfl
    have hpd0 : _partial_discriminant (genericBiquadric a00 a10 a20 a01 a11 a21 a02 a12 a22) 2 (some 3)
        = .ok (([(a01, [2, 0, 0, 0]), (a11, [1, 1, 0, 0]), (a21, [0, 2, 0, 0])] : Poly) ^ 2
          - Qc 4 * (([(a02, [2, 0, 0, 0]), (a12, [1, 1, 0, 0]), (a22, [0, 2, 0, 0])] : Poly)
              * [(a00, [2, 0, 0, 0]), (a10, [1, 1, 0, 0]), (a20, [0, 2, 0, 0])])) := rfl
    have hpd : _partial_discriminant (genericBiquadric a00 a10 a20 a01 a11 a21 a02 a12 a22) 2 (some 3)
        = .ok [((a01 * (a01 * 1)), [4, 0, 0, 0]),
          ((a01 * (a11 * 1)), [3, 1, 0, 0]),
          ((a01 * (a21 * 1)), [2, 2, 0, 0]),
          ((a11 * (a01 * 1)), [3, 1, 0, 0]),
          ((a11 * (a11 * 1)), [2, 2, 0, 0]),
          ((a11 * (a21 * 1)), [1, 3, 0, 0]),
          ((a21 * (a01 * 1)), [2, 2, 0, 0]),
          ((a21 * (a11 * 1)), [1, 3, 0, 0]),
          ((a21 * (a21 * 1)), [0, 4, 0, 0]),
          (((-1) * (4 * (a02 * a00))), [4, 0, 0, 0]),
          (((-1) * (4 * (a02 * a10))), [3, 1, 0, 0]),
          (((-1) * (4 * (a02 * a20))), [2, 2, 0, 0]),
          (((-1) * (4 * (a12 * a00))), [3, 1, 0, 0]),
          (((-1) * (4 * (a12 * a10))), [2, 2, 0, 0]),
          (((-1) * (4 * (a12 * a20))), [1, 3, 0, 0]),
          (((-1) * (4 * (a22 * a00))), [2, 2, 0, 0]),
          (((-1) * (4 * (a22 * a10))), [1, 3, 0, 0]),
          (((-1) * (4 * (a22 * a20))), [0, 4, 0, 0])] := by rw [hpd0, harith]
    have hexps : exponentsOf [((a01 * (a01 * 1)), [4, 0, 0, 0]),
          ((a01 * (a11 * 1)), [3, 1, 0, 0]),
          ((a01 * (a21 * 1)), [2, 2, 0, 0]),
          ((a11 * (a01 * 1)), [3, 1, 0, 0]),
          ((a11 * (a11 * 1)), [2, 2, 0, 0]),
          ((a11 * (a21 * 1)), [1, 3, 0, 0]),
          ((a21 * (a01 * 1)), [2, 2, 0, 0]),
          ((a21 * (a11 * 1)), [1, 3, 0, 0]),
          ((a21 * (a21 * 1)), [0, 4, 0, 0]),
          (((-1) * (4 * (a02 * a00))), [4, 0, 0, 0]),
          (((-1) * (4 * (a02 * a10))), [3, 1, 0, 0]),
          (((-1) * (4 * (a02 * a20))), [2, 2, 0, 0]),
          (((-1) * (4 * (a12 * a00))), [3, 1, 0, 0]),
          (((-1) * (4 * (a12 * a10))), [2, 2, 0, 0]),
          (((-1) * (4 * (a12 * a20))), [1, 3, 0, 0]),
          (((-1) * (4 * (a22 * a00))), [2, 2, 0, 0]),
          (((-1) * (4 * (a22 * a10))), [1, 3, 0, 0]),
          (((-1) * (4 * (a22 * a20))), [0, 4, 0, 0])]
        = [[4, 0, 0, 0], [3, 1, 0, 0], [2, 2, 0, 0], [3, 1, 0, 0], [2, 2, 0, 0], [1, 3, 0, 0], [2, 2, 0, 0], [1, 3, 0, 0], [0, 4, 0, 0], [4, 0, 0, 0], [3, 1, 0, 0], [2, 2, 0, 0], [3, 1, 0, 0], [2, 2, 0, 0], [1, 3, 0, 0], [2, 2, 0, 0], [1, 3, 0, 0], [0, 4, 0, 0]] := rfl
    obtain ⟨cs, hcs⟩ := extract_ok_of_exponents [((a01 * (a01 * 1)), [4, 0, 0, 0]),
          ((a01 * (a11 * 1)), [3, 1, 0, 0]),
          ((a01 * (a21 * 1)), [2, 2, 0, 0]),
          ((a11 * (a01 * 1)), [3, 1, 0, 0]),
          ((a11 * (a11 * 1)), [2, 2, 0, 0]),
          ((a11 * (a21 * 1)), [1, 3, 0, 0]),
          ((a21 * (a01 * 1)), [2, 2, 0, 0]),
          ((a21 * (a11 * 1)), [1, 3, 0, 0]),
          ((a21 * (a21 * 1)), [0, 4, 0, 0]),
          (((-1) * (4 * (a02 * a00))), [4, 0, 0, 0]),
          (((-1) * (4 * (a02 * a10))), [3, 1, 0, 0]),
          (((-1) * (4 * (a02 * a20))), [2, 2, 0, 0]),
          (((-1) * (4 * (a12 * a00))), [3, 1, 0, 0]),
          (((-1) * (4 * (a12 * a10))), [2, 2, 0, 0]),
          (((-1) * (4 * (a12 * a20))), [1, 3, 0, 0]),
          (((-1) * (4 * (a22 * a00))), [2, 2, 0, 0]),
          (((-1) * (4 * (a22 * a10))), [1, 3, 0, 0]),
          (((-1) * (4 * (a22 * a20))), [0, 4, 0, 0])]
        (binaryQuarticBasis 0 (some 1)) [0, 1] (by rw [hexps]; decide)
    have hg0 : cs.getD 0 [] = [((a01 * (a01 * 1)), [0, 0, 0, 0]),
            (((-1) * (4 * (a02 * a00))), [0, 0, 0, 0])] := by
      rw [extract_ok_getD _ _ _ _ hcs (by decide) 0 (by decide)]
      rfl
    have hg1 : cs.getD 1 [] = [((a01 * (a11 * 1)), [0, 0, 0, 0]),
            ((a11 * (a01 * 1)), [0, 0, 0, 0]),
            (((-1) * (4 * (a02 * a10))), [0, 0, 0, 0]),
            (((-1) * (4 * (a12 * a00))), [0, 0, 0, 0])] := by
      rw [extract_ok_getD _ _ _ _ hcs (by decide) 1 (by decide)]
      rfl
    have hg2 : cs.getD 2 [] = [((a01 * (a21 * 1)), [0, 0, 0, 0]),
            ((a11 * (a11 * 1)), [0, 0, 0, 0]),
            ((a21 * (a01 * 1)), [0, 0, 0, 0]),
            (((-1) * (4 * (a02 * a20))), [0, 0, 0, 0]),
            (((-1) * (4 * (a12 * a10))), [0, 0, 0, 0]),
            (((-1) * (4 * (a22 * a00))), [0, 0, 0, 0])] := by
      rw [extract_ok_getD _ _ _ _ hcs (by decide) 2 (by decide)]
      rfl
    have hg3 : cs.getD 3 [] = [((a11 * (a21 * 1)), [0, 0, 0, 0]),
            ((a21 * (a11 * 1)), [0, 0, 0, 0]),
            (((-1) * (4 * (a12 * a20))), [0, 0, 0, 0]),
            (((-1) * (4 * (a22 * a10))), [0, 0, 0, 0])] := by
      rw [extract_ok_getD _ _ _ _ hcs (by decide) 3 (by decide)]
      rfl
    have hg4 : cs.getD 4 [] = [((a21 * (a21 * 1)), [0, 0, 0, 0]),
            (((-1) * (4 * (a22 * a20))), [0, 0, 0, 0])] := by
      rw [extract_ok_getD _ _ _ _ hcs (by decide) 4 (by decide)]
      rfl
    have hq : binaryQuarticE [((a01 * (a01 * 1)), [4, 0, 0, 0]),
          ((a01 * (a11 * 1)), [3, 1, 0, 0]),
          ((a01 * (a21 * 1)), [2, 2, 0, 0]),
          ((a11 * (a01 * 1)), [3, 1, 0, 0]),
          ((a11 * (a11 * 1)), [2, 2, 0, 0]),
          ((a11 * (a21 * 1)), [1, 3, 0, 0]),
          ((a21 * (a01 * 1)), [2, 2, 0, 0]),
          ((a21 * (a11 * 1)), [1, 3, 0, 0]),
          ((a21 * (a21 * 1)), [0, 4, 0, 0]),
          (((-1) * (4 * (a02 * a00))), [4, 0, 0, 0]),
          (((-1) * (4 * (a02 * a10))), [3, 1, 0, 0]),
          (((-1) * (4 * (a02 * a20))), [2, 2, 0, 0]),
          (((-1) * (4 * (a12 * a00))), [3, 1, 0, 0]),
          (((-1) * (4 * (a12 * a10))), [2, 2, 0, 0]),
          (((-1) * (4 * (a12 * a20))), [1, 3, 0, 0]),
          (((-1) * (4 * (a22 * a00))), [2, 2, 0, 0]),
          (((-1) * (4 * (a22 * a10))), [1, 3, 0, 0]),
          (((-1) * (4 * (a22 * a20))), [0, 4, 0, 0])]
        0 (some 1)
        = .ok ([((a01 * (a01 * 1)), [0, 0, 0, 0]),
            (((-1) * (4 * (a02 * a00))), [0, 0, 0, 0])],
          smulQ (1/4) [((a01 * (a11 * 1)), [0, 0, 0, 0]),
            ((a11 * (a01 * 1)), [0, 0, 0, 0]),
            (((-1) * (4 * (a02 * a10))), [0, 0, 0, 0]),
            (((-1) * (4 * (a12 * a00))), [0, 0, 0, 0])],
          smulQ (1/6) [((a01 * (a21 * 1)), [0, 0, 0, 0]),
            ((a11 * (a11 * 1)), [0, 0, 0, 0]),
            ((a21 * (a01 * 1)), [0, 0, 0, 0]),
            (((-1) * (4 * (a02 * a20))), [0, 0, 0, 0]),
            (((-1) * (4 * (a12 * a10))), [0, 0, 0, 0]),
            (((-1) * (4 * (a22 * a00))), [0, 0, 0, 0])],
          smulQ (1/4) [((a11 * (a21 * 1)), [0, 0, 0, 0]),
            ((a21 * (a11 * 1)), [0, 0, 0, 0]),
            (((-1) * (4 * (a12 * a20))), [0, 0, 0, 0]),
            (((-1) * (4 * (a22 * a10))), [0, 0, 0, 0])],
          [((a21 * (a21 * 1)), [0, 0, 0, 0]),
            (((-1) * (4 * (a22 * a20))), [0, 0, 0, 0])]) := by
      simp only [binaryQuarticE, hcs, hg0, hg1, hg2, hg3, hg4]
    have hchk : _check_polynomial_P1xP1 (genericBiquadric a00 a10 a20 a01 a11 a21 a02 a12 a22) (some [0, 1, 2, 3])
        = .ok (0, some 1, 2, some 3) := rfl
    refine ⟨hpd, ?_⟩
    have hwf : WeierstrassForm_P1xP1 (genericBiquadric a00 a10 a20 a01 a11 a21 a02 a12 a22) (some [0, 1, 2, 3])
        = .ok (smulQ (-1/4) (EisensteinD [((a01 * (a01 * 1)), [0, 0, 0, 0]),
            (((-1) * (4 * (a02 * a00))), [0, 0, 0, 0])]
              (smulQ (1/4) [((a01 * (a11 * 1)), [0, 0, 0, 0]),
            ((a11 * (a01 * 1)), [0, 0, 0, 0]),
            (((-1) * (4 * (a02 * a10))), [0, 0, 0, 0]),
            (((-1) * (4 * (a12 * a00))), [0, 0, 0, 0])])
              (smulQ (1/6) [((a01 * (a21 * 1)), [0, 0, 0, 0]),
            ((a11 * (a11 * 1)), [0, 0, 0, 0]),
            ((a21 * (a01 * 1)), [0, 0, 0, 0]),
            (((-1) * (4 * (a02 * a20))), [0, 0, 0, 0]),
            (((-1) * (4 * (a12 * a10))), [0, 0, 0, 0]),
            (((-1) * (4 * (a22 * a00))), [0, 0, 0, 0])])
              (smulQ (1/4) [((a11 * (a21 * 1)), [0, 0, 0, 0]),
            ((a21 * (a11 * 1)), [0, 0, 0, 0]),
            (((-1) * (4 * (a12 * a20))), [0, 0, 0, 0]),
            (((-1) * (4 * (a22 * a10))), [0, 0, 0, 0])])
              [((a21 * (a21 * 1)), [0, 0, 0, 0]),
            (((-1) * (4 * (a22 * a20))), [0, 0, 0, 0])]),
            smulQ (-1/4) (Qc (-1) * EisensteinE [((a01 * (a01 * 1)), [0, 0, 0, 0]),
            (((-1) * (4 * (a02 * a00))), [0, 0, 0, 0])]
              (smulQ (1/4) [((a01 * (a11 * 1)), [0, 0, 0, 0]),
            ((a11 * (a01 * 1)), [0, 0, 0, 0]),
            (((-1) * (4 * (a02 * a10))), [0, 0, 0, 0]),
            (((-1) * (4 * (a12 * a00))), [0, 0, 0, 0])])
              (smulQ (1/6) [((a01 * (a21 * 1)), [0, 0, 0, 0]),
            ((a11 * (a11 * 1)), [0, 0, 0, 0]),
            ((a21 * (a01 * 1)), [0, 0, 0, 0]),
            (((-1) * (4 * (a02 * a20))), [0, 0, 0, 0]),
            (((-1) * (4 * (a12 * a10))), [0, 0, 0, 0]),
            (((-1) * (4 * (a22 * a00))), [0, 0, 0, 0])])
              (smulQ (1/4) [((a11 * (a21 * 1)), [0, 0, 0, 0]),
            ((a21 * (a11 * 1)), [0, 0, 0, 0]),
            (((-1) * (4 * (a12 * a20))), [0, 0, 0, 0]),
            (((-1) * (4 * (a22 * a10))), [0, 0, 0, 0])])
              [((a21 * (a21 * 1)), [0, 0, 0, 0]),
            (((-1) * (4 * (a22 * a20))), [0, 0, 0, 0])])) := by
      simp only [WeierstrassForm_P1xP1, hchk, hpd, hq]
    rw [hwf, Except.map]
    refine congrArg Except.ok (Prod.ext ?_ ?_)
    · simp only [EisensteinD, toMv_sub, toMv_add, toMv_mul, toMv_pow, toMv_Qc,
        toMv_smulQ, toMv_cons, toMv_nil, monMv_zero4, mul_one, add_zero,
        ← map_mul, ← map_pow, ← map_add, ← map_sub, C_inj, Iquartic]
      ring
    · simp only [EisensteinE, toMv_neg, toMv_sub, toMv_add, toMv_mul, toMv_pow,
        toMv_Qc, toMv_smulQ, toMv_cons, toMv_nil, monMv_zero4, mul_one, add_zero,
        ← map_mul, ← map_pow, ← map_add, ← map_sub, ← map_neg, C_inj, Jquartic]
      ring

  have hgenP2 : ∀ a40 a30 a20 a10 a00 a21 a11 a01 a02 : ℚ,
      _partial_discriminant (genericP2_112 a40 a30 a20 a10 a00 a21 a11 a01 a02) 1 (some 3)
        = .ok [((a21 * (a21 * 1)), [4, 0, 0, 0]),
          ((a21 * (a11 * 1)), [3, 0, 1, 0]),
          ((a21 * (a01 * 1)), [2, 0, 2, 0]),
          ((a11 * (a21 * 1)), [3, 0, 1, 0]),
          ((a11 * (a11 * 1)), [2, 0, 2, 0]),
          ((a11 * (a01 * 1)), [1, 0, 3, 0]),
          ((a01 * (a21 * 1)), [2, 0, 2, 0]),
          ((a01 * (a11 * 1)), [1, 0, 3, 0]),
          ((a01 * (a01 * 1)), [0, 0, 4, 0]),
          (((-1) * (4 * (a40 * a02))), [4, 0, 0, 0]),
          (((-1) * (4 * (a30 * a02))), [3, 0, 1, 0]),
          (((-1) * (4 * (a20 * a02))), [2, 0, 2, 0]),
          (((-1) * (4 * (a10 * a02))), [1, 0, 3, 0]),
          (((-1) * (4 * (a00 * a02))), [0, 0, 4, 0])]
      ∧ ((WeierstrassForm_P2_112 (genericP2_112 a40 a30 a20 a10 a00 a21 a11 a01 a02)
            (some [0, 1, 2, 3])).map (fun fg => (toMv fg.1, toMv fg.2))
          = .ok (C (-(Iquartic (a21^2 - 4*(a40*a02)) ((2*(a21*a11) - 4*(a30*a02))/4) ((a11^2 + 2*(a21*a01) - 4*(a20*a02))/6) ((2*(a11*a01) - 4*(a10*a02))/4) (a01^2 - 4*(a00*a02)))/4),
              C (-(Jquartic (a21^2 - 4*(a40*a02)) ((2*(a21*a11) - 4*(a30*a02))/4) ((a11^2 + 2*(a21*a01) - 4*(a20*a02))/6) ((2*(a11*a01) - 4*(a10*a02))/4) (a01^2 - 4*(a00*a02)))/4))) := by
    intro a40 a30 a20 a10 a00 a21 a11 a01 a02
    have harith : (([(a21, [2, 0, 0, 0]), (a11, [1, 0, 1, 0]), (a01, [0, 0, 2, 0])] : Poly) ^ 2
          - Qc 4 * (([(a40, [4, 0, 0, 0]), (a30, [3, 0, 1, 0]), (a20, [2, 0, 2, 0]), (a10, [1, 0, 3, 0]), (a00, [0, 0, 4, 0])] : Poly)
              * [(a02, [0, 0, 0, 0])]))
        = [((a21 * (a21 * 1)), [4, 0, 0, 0]),
          ((a21 * (a11 * 1)), [3, 0, 1, 0]),
          ((a21 * (a01 * 1)), [2, 0, 2, 0]),
          ((a11 * (a21 * 1)), [3, 0, 1, 0]),
          ((a11 * (a11 * 1)), [2, 0, 2, 0]),
          ((a11 * (a01 * 1)), [1, 0, 3, 0]),
          ((a01 * (a21 * 1)), [2, 0, 2, 0]),
          ((a01 * (a11 * 1)), [1, 0, 3, 0]),
          ((a01 * (a01 * 1)), [0, 0, 4, 0]),
          (((-1) * (4 * (a40 * a02))), [4, 0, 0, 0]),
          (((-1) * (4 * (a30 * a02))), [3, 0, 1, 0]),
          (((-1) * (4 * (a20 * a02))), [2, 0, 2, 0]),
          (((-1) * (4 * (a10 * a02))), [1, 0, 3, 0]),
          (((-1) * (4 * (a00 * a02))), [0, 0, 4, 0])] := rfl
    have hpd0 : _partial_discriminant (genericP2_112 a40 a30 a20 a10 a00 a21 a11 a01 a02) 1 (some 3)
        = .ok (([(a21, [2, 0, 0, 0]), (a11, [1, 0, 1, 0]), (a01, [0, 0, 2, 0])] : Poly) ^ 2
          - Qc 4 * (([(a40, [4, 0, 0, 0]), (a30, [3, 0, 1, 0]), (a20, [2, 0, 2, 0]), (a10, [1, 0, 3, 0]), (a00, [0, 0, 4, 0])] : Poly)
              * [(a02, [0, 0, 0, 0])])) := rfl
    have hpd : _partial_discriminant (genericP2_112 a40 a30 a20 a10 a00 a21 a11 a01 a02) 1 (some 3)
        = .ok [((a21 * (a21 * 1)), [4, 0, 0, 0]),
          ((a21 * (a11 * 1)), [3, 0, 1, 0]),
          ((a21 * (a01 * 1)), [2, 0, 2, 0]),
          ((a11 * (a21 * 1)), [3, 0, 1, 0]),
          ((a11 * (a11 * 1)), [2, 0, 2, 0]),
          ((a11 * (a01 * 1)), [1, 0, 3, 0]),
          ((a01 * (a21 * 1)), [2, 0, 2, 0]),
          ((a01 * (a11 * 1)), [1, 0, 3, 0]),
          ((a01 * (a01 * 1)), [0, 0, 4, 0]),
          (((-1) * (4 * (a40 * a02))), [4, 0, 0, 0]),
          (((-1) * (4 * (a30 * a02))), [3, 0, 1, 0]),
          (((-1) * (4 * (a20 * a02))), [2, 0, 2, 0]),
          (((-1) * (4 * (a10 * a02))), [1, 0, 3, 0]),
          (((-1) * (4 * (a00 * a02))), [0, 0, 4, 0])] := by rw [hpd0, harith]
    have hexps : exponentsOf [((a21 * (a21 * 1)), [4, 0, 0, 0]),
          ((a21 * (a11 * 1)), [3, 0, 1, 0]),
          ((a21 * (a01 * 1)), [2, 0, 2, 0]),
          ((a11 * (a21 * 1)), [3, 0, 1, 0]),
          ((a11 * (a11 * 1)), [2, 0, 2, 0]),
          ((a11 * (a01 * 1)), [1, 0, 3, 0]),
          ((a01 * (a21 * 1)), [2, 0, 2, 0]),
          ((a01 * (a11 * 1)), [1, 0, 3, 0]),
          ((a01 * (a01 * 1)), [0, 0, 4, 0]),
          (((-1) * (4 * (a40 * a02))), [4, 0, 0, 0]),
          (((-1) * (4 * (a30 * a02))), [3, 0, 1, 0]),
          (((-1) * (4 * (a20 * a02))), [2, 0, 2, 0]),
          (((-1) * (4 * (a10 * a02))), [1, 0, 3, 0]),
          (((-1) * (4 * (a00 * a02))), [0, 0, 4, 0])]
        = [[4, 0, 0, 0], [3, 0, 1, 0], [2, 0, 2, 0], [3, 0, 1, 0], [2, 0, 2, 0], [1, 0, 3, 0], [2, 0, 2, 0], [1, 0, 3, 0], [0, 0, 4, 0], [4, 0, 0, 0], [3, 0, 1, 0], [2, 0, 2, 0], [1, 0, 3, 0], [0, 0, 4, 0]] := rfl
    obtain ⟨cs, hcs⟩ := extract_ok_of_exponents [((a21 * (a21 * 1)), [4, 0, 0, 0]),
          ((a21 * (a11 * 1)), [3, 0, 1, 0]),
          ((a21 * (a01 * 1)), [2, 0, 2, 0]),
          ((a11 * (a21 * 1)), [3, 0, 1, 0]),
          ((a11 * (a11 * 1)), [2, 0, 2, 0]),
          ((a11 * (a01 * 1)), [1, 0, 3, 0]),
          ((a01 * (a21 * 1)), [2, 0, 2, 0]),
          ((a01 * (a11 * 1)), [1, 0, 3, 0]),
          ((a01 * (a01 * 1)), [0, 0, 4, 0]),
          (((-1) * (4 * (a40 * a02))), [4, 0, 0, 0]),
          (((-1) * (4 * (a30 * a02))), [3, 0, 1, 0]),
          (((-1) * (4 * (a20 * a02))), [2, 0, 2, 0]),
          (((-1) * (4 * (a10 * a02))), [1, 0, 3, 0]),
          (((-1) * (4 * (a00 * a02))), [0, 0, 4, 0])]
        (binaryQuarticBasis 0 (some 2)) [0, 2] (by rw [hexps]; decide)
    have hg0 : cs.getD 0 [] = [((a21 * (a21 * 1)), [0, 0, 0, 0]),
            (((-1) * (4 * (a40 * a02))), [0, 0, 0, 0])] := by
      rw [extract_ok_getD _ _ _ _ hcs (by decide) 0 (by decide)]
      rfl
    have hg1 : cs.getD 1 [] = [((a21 * (a11 * 1)), [0, 0, 0, 0]),
            ((a11 * (a21 * 1)), [0, 0, 0, 0]),
            (((-1) * (4 * (a30 * a02))), [0, 0, 0, 0])] := by
      rw [extract_ok_getD _ _ _ _ hcs (by decide) 1 (by decide)]
      rfl
    have hg2 : cs.getD 2 [] = [((a21 * (a01 * 1)), [0, 0, 0, 0]),
            ((a11 * (a11 * 1)), [0, 0, 0, 0]),
            ((a01 * (a21 * 1)), [0, 0, 0, 0]),
            (((-1) * (4 * (a20 * a02))), [0, 0, 0, 0])] := by
      rw [extract_ok_getD _ _ _ _ hcs (by decide) 2 (by decide)]
      rfl
    have hg3 : cs.getD 3 [] = [((a11 * (a01 * 1)), [0, 0, 0, 0]),
            ((a01 * (a11 * 1)), [0, 0, 0, 0]),
            (((-1) * (4 * (a10 * a02))), [0, 0, 0, 0])] := by
      rw [extract_ok_getD _ _ _ _ hcs (by decide) 3 (by decide)]
      rfl
    have hg4 : cs.getD 4 [] = [((a01 * (a01 * 1)), [0, 0, 0, 0]),
            (((-1) * (4 * (a00 * a02))), [0, 0, 0, 0])] := by
      rw [extract_ok_getD _ _ _ _ hcs (by decide) 4 (by decide)]
      rfl
    have hq : binaryQuarticE [((a21 * (a21 * 1)), [4, 0, 0, 0]),
          ((a21 * (a11 * 1)), [3, 0, 1, 0]),
          ((a21 * (a01 * 1)), [2, 0, 2, 0]),
          ((a11 * (a21 * 1)), [3, 0, 1, 0]),
          ((a11 * (a11 * 1)), [2, 0, 2, 0]),
          ((a11 * (a01 * 1)), [1, 0, 3, 0]),
          ((a01 * (a21 * 1)), [2, 0, 2, 0]),
          ((a01 * (a11 * 1)), [1, 0, 3, 0]),
          ((a01 * (a01 * 1)), [0, 0, 4, 0]),
          (((-1) * (4 * (a40 * a02))), [4, 0, 0, 0]),
          (((-1) * (4 * (a30 * a02))), [3, 0, 1, 0]),
          (((-1) * (4 * (a20 * a02))), [2, 0, 2, 0]),
          (((-1) * (4 * (a10 * a02))), [1, 0, 3, 0]),
          (((-1) * (4 * (a00 * a02))), [0, 0, 4, 0])]
        0 (some 2)
        = .ok ([((a21 * (a21 * 1)), [0, 0, 0, 0]),
            (((-1) * (4 * (a40 * a02))), [0, 0, 0, 0])],
          smulQ (1/4) [((a21 * (a11 * 1)), [0, 0, 0, 0]),
            ((a11 * (a21 * 1)), [0, 0, 0, 0]),
            (((-1) * (4 * (a30 * a02))), [0, 0, 0, 0])],
          smulQ (1/6) [((a21 * (a01 * 1)), [0, 0, 0, 0]),
            ((a11 * (a11 * 1)), [0, 0, 0, 0]),
            ((a01 * (a21 * 1)), [0, 0, 0, 0]),
            (((-1) * (4 * (a20 * a02))), [0, 0, 0, 0])],
          smulQ (1/4) [((a11 * (a01 * 1)), [0, 0, 0, 0]),
            ((a01 * (a11 * 1)), [0, 0, 0, 0]),
            (((-1) * (4 * (a10 * a02))), [0, 0, 0, 0])],
          [((a01 * (a01 * 1)), [0, 0, 0, 0]),
            (((-1) * (4 * (a00 * a02))), [0, 0, 0, 0])]) := by
      simp only [binaryQuarticE, hcs, hg0, hg1, hg2, hg3, hg4]
    have hchk : _check_polynomial_P2_112 (genericP2_112 a40 a30 a20 a10 a00 a21 a11 a01 a02) (some [0, 1, 2, 3])
        = .ok (0, 1, some 2, some 3) := rfl
    refine ⟨hpd, ?_⟩
    have hwf : WeierstrassForm_P2_112 (genericP2_112 a40 a30 a20 a10 a00 a21 a11 a01 a02) (some [0, 1, 2, 3])
        = .ok (smulQ (-1/4) (EisensteinD [((a21 * (a21 * 1)), [0, 0, 0, 0]),
            (((-1) * (4 * (a40 * a02))), [0, 0, 0, 0])]
              (smulQ (1/4) [((a21 * (a11 * 1)), [0, 0, 0, 0]),
            ((a11 * (a21 * 1)), [0, 0, 0, 0]),
            (((-1) * (4 * (a30 * a02))), [0, 0, 0, 0])])
              (smulQ (1/6) [((a21 * (a01 * 1)), [0, 0, 0, 0]),
            ((a11 * (a11 * 1)), [0, 0, 0, 0]),
            ((a01 * (a21 * 1)), [0, 0, 0, 0]),
            (((-1) * (4 * (a20 * a02))), [0, 0, 0, 0])])
              (smulQ (1/4) [((a11 * (a01 * 1)), [0, 0, 0, 0]),
            ((a01 * (a11 * 1)), [0, 0, 0, 0]),
            (((-1) * (4 * (a10 * a02))), [0, 0, 0, 0])])
              [((a01 * (a01 * 1)), [0, 0, 0, 0]),
            (((-1) * (4 * (a00 * a02))), [0, 0, 0, 0])]),
            smulQ (-1/4) (Qc (-1) * EisensteinE [((a21 * (a21 * 1)), [0, 0, 0, 0]),
            (((-1) * (4 * (a40 * a02))), [0, 0, 0, 0])]
              (smulQ (1/4) [((a21 * (a11 * 1)), [0, 0, 0, 0]),
            ((a11 * (a21 * 1)), [0, 0, 0, 0]),
            (((-1) * (4 * (a30 * a02))), [0, 0, 0, 0])])
              (smulQ (1/6) [((a21 * (a01 * 1)), [0, 0, 0, 0]),
            ((a11 * (a11 * 1)), [0, 0, 0, 0]),
            ((a01 * (a21 * 1)), [0, 0, 0, 0]),
            (((-1) * (4 * (a20 * a02))), [0, 0, 0, 0])])
              (smulQ (1/4) [((a11 * (a01 * 1)), [0, 0, 0, 0]),
            ((a01 * (a11 * 1)), [0, 0, 0, 0]),
            (((-1) * (4 * (a10 * a02))), [0, 0, 0, 0])])
              [((a01 * (a01 * 1)), [0, 0, 0, 0]),
            (((-1) * (4 * (a00 * a02))), [0, 0, 0, 0])])) := by
      simp only [WeierstrassForm_P2_112, hchk, hpd, hq]
    rw [hwf, Except.map]
    refine congrArg Except.ok (Prod.ext ?_ ?_)
    · simp only [EisensteinD, toMv_sub, toMv_add, toMv_mul, toMv_pow, toMv_Qc,
        toMv_smulQ, toMv_cons, toMv_nil, monMv_zero4, mul_one, add_zero,
        ← map_mul, ← map_pow, ← map_add, ← map_sub, C_inj, Iquartic]
      ring
    · simp only [EisensteinE, toMv_neg, toMv_sub, toMv_add, toMv_mul, toMv_pow,
        toMv_Qc, toMv_smulQ, toMv_cons, toMv_nil, monMv_zero4, mul_one, add_zero,
        ← map_mul, ← map_pow, ← map_add, ← map_sub, ← map_neg, C_inj, Jquartic]
      ring

  refine ⟨?_, ?_, ?_, ?_⟩
  · intro a00 a10 a20 a01 a11 a21 a02 a12 a22
    obtain ⟨hpd, hmap⟩ := hgenP1 a00 a10 a20 a01 a11 a21 a02 a12 a22
    refine ⟨_, a01^2 - 4*(a02*a00), (2*(a01*a11) - 4*(a02*a10 + a12*a00))/4,
      (a11^2 + 2*(a01*a21) - 4*(a02*a20 + a12*a10 + a22*a00))/6, (2*(a11*a21) - 4*(a12*a20 + a22*a10))/4,
      a21^2 - 4*(a22*a20), hpd, ?_, ?_, ?_, ?_, ?_, hmap⟩
    · -- coefficient at [4, 0, 0, 0]
      rw [coeffOf_cons_true [4, 0, 0, 0] [4, 0, 0, 0] rfl,
        coeffOf_cons_false [3, 1, 0, 0] [4, 0, 0, 0] rfl,
        coeffOf_cons_false [2, 2, 0, 0] [4, 0, 0, 0] rfl,
        coeffOf_cons_false [3, 1, 0, 0] [4, 0, 0, 0] rfl,
        coeffOf_cons_false [2, 2, 0, 0] [4, 0, 0, 0] rfl,
        coeffOf_cons_false [1, 3, 0, 0] [4, 0, 0, 0] rfl,
        coeffOf_cons_false [2, 2, 0, 0] [4, 0, 0, 0] rfl,
        coeffOf_cons_false [1, 3, 0, 0] [4, 0, 0, 0] rfl,
        coeffOf_cons_false [0, 4, 0, 0] [4, 0, 0, 0] rfl,
        coeffOf_cons_true [4, 0, 0, 0] [4, 0, 0, 0] rfl,
        coeffOf_cons_false [3, 1, 0, 0] [4, 0, 0, 0] rfl,
        coeffOf_cons_false [2, 2, 0, 0] [4, 0, 0, 0] rfl,
        coeffOf_cons_false [3, 1, 0, 0] [4, 0, 0, 0] rfl,
        coeffOf_cons_false [2, 2, 0, 0] [4, 0, 0, 0] rfl,
        coeffOf_cons_false [1, 3, 0, 0] [4, 0, 0, 0] rfl,
        coeffOf_cons_false [2, 2, 0, 0] [4, 0, 0, 0] rfl,
        coeffOf_cons_false [1, 3, 0, 0] [4, 0, 0, 0] rfl,
        coeffOf_cons_false [0, 4, 0, 0] [4, 0, 0, 0] rfl,
        coeffOf_nil]
      ring
    · -- coefficient at [3, 1, 0, 0]
      rw [coeffOf_cons_false [4, 0, 0, 0] [3, 1, 0, 0] rfl,
        coeffOf_cons_true [3, 1, 0, 0] [3, 1, 0, 0] rfl,
        coeffOf_cons_false [2, 2, 0, 0] [3, 1, 0, 0] rfl,
        coeffOf_cons_true [3, 1, 0, 0] [3, 1, 0, 0] rfl,
        coeffOf_cons_false [2, 2, 0, 0] [3, 1, 0, 0] rfl,
        coeffOf_cons_false [1, 3, 0, 0] [3, 1, 0, 0] rfl,
        coeffOf_cons_false [2, 2, 0, 0] [3, 1, 0, 0] rfl,
        coeffOf_cons_false [1, 3, 0, 0] [3, 1, 0, 0] rfl,
        coeffOf_cons_false [0, 4, 0, 0] [3, 1, 0, 0] rfl,
        coeffOf_cons_false [4, 0, 0, 0] [3, 1, 0, 0] rfl,
        coeffOf_cons_true [3, 1, 0, 0] [3, 1, 0, 0] rfl,
        coeffOf_cons_false [2, 2, 0, 0] [3, 1, 0, 0] rfl,
        coeffOf_cons_true [3, 1, 0, 0] [3, 1, 0, 0] rfl,
        coeffOf_cons_false [2, 2, 0, 0] [3, 1, 0, 0] rfl,
        coeffOf_cons_false [1, 3, 0, 0] [3, 1, 0, 0] rfl,
        coeffOf_cons_false [2, 2, 0, 0] [3, 1, 0, 0] rfl,
        coeffOf_cons_false [1, 3, 0, 0] [3, 1, 0, 0] rfl,
        coeffOf_cons_false [0, 4, 0, 0] [3, 1, 0, 0] rfl,
        coeffOf_nil]
      ring
    · -- coefficient at [2, 2, 0, 0]
      rw [coeffOf_cons_false [4, 0, 0, 0] [2, 2, 0, 0] rfl,
        coeffOf_cons_false [3, 1, 0, 0] [2, 2, 0, 0] rfl,
        coeffOf_cons_true [2, 2, 0, 0] [2, 2, 0, 0] rfl,
        coeffOf_cons_false [3, 1, 0, 0] [2, 2, 0, 0] rfl,
        coeffOf_cons_true [2, 2, 0, 0] [2, 2, 0, 0] rfl,
        coeffOf_cons_false [1, 3, 0, 0] [2, 2, 0, 0] rfl,
        coeffOf_cons_true [2, 2, 0, 0] [2, 2, 0, 0] rfl,
        coeffOf_cons_false [1, 3, 0, 0] [2, 2, 0, 0] rfl,
        coeffOf_cons_false [0, 4, 0, 0] [2, 2, 0, 0] rfl,
        coeffOf_cons_false [4, 0, 0, 0] [2, 2, 0, 0] rfl,
        coeffOf_cons_false [3, 1, 0, 0] [2, 2, 0, 0] rfl,
        coeffOf_cons_true [2, 2, 0, 0] [2, 2, 0, 0] rfl,
        coeffOf_cons_false [3, 1, 0, 0] [2, 2, 0, 0] rfl,
        coeffOf_cons_true [2, 2, 0, 0] [2, 2, 0, 0] rfl,
        coeffOf_cons_false [1, 3, 0, 0] [2, 2, 0, 0] rfl,
        coeffOf_cons_true [2, 2, 0, 0] [2, 2, 0, 0] rfl,
        coeffOf_cons_false [1, 3, 0, 0] [2, 2, 0, 0] rfl,
        coeffOf_cons_false [0, 4, 0, 0] [2, 2, 0, 0] rfl,
        coeffOf_nil]
      ring
    · -- coefficient at [1, 3, 0, 0]
      rw [coeffOf_cons_false [4, 0, 0, 0] [1, 3, 0, 0] rfl,
        coeffOf_cons_false [3, 1, 0, 0] [1, 3, 0, 0] rfl,
        coeffOf_cons_false [2, 2, 0, 0] [1, 3, 0, 0] rfl,
        coeffOf_cons_false [3, 1, 0, 0] [1, 3, 0, 0] rfl,
        coeffOf_cons_false [2, 2, 0, 0] [1, 3, 0, 0] rfl,
        coeffOf_cons_true [1, 3, 0, 0] [1, 3, 0, 0] rfl,
        coeffOf_cons_false [2, 2, 0, 0] [1, 3, 0, 0] rfl,
        coeffOf_cons_true [1, 3, 0, 0] [1, 3, 0, 0] rfl,
        coeffOf_cons_false [0, 4, 0, 0] [1, 3, 0, 0] rfl,
        coeffOf_cons_false [4, 0, 0, 0] [1, 3, 0, 0] rfl,
        coeffOf_cons_false [3, 1, 0, 0] [1, 3, 0, 0] rfl,
        coeffOf_cons_false [2, 2, 0, 0] [1, 3, 0, 0] rfl,
        coeffOf_cons_false [3, 1, 0, 0] [1, 3, 0, 0] rfl,
        coeffOf_cons_false [2, 2, 0, 0] [1, 3, 0, 0] rfl,
        coeffOf_cons_true [1, 3, 0, 0] [1, 3, 0, 0] rfl,
        coeffOf_cons_false [2, 2, 0, 0] [1, 3, 0, 0] rfl,
        coeffOf_cons_true [1, 3, 0, 0] [1, 3, 0, 0] rfl,
        coeffOf_cons_false [0, 4, 0, 0] [1, 3, 0, 0] rfl,
        coeffOf_nil]
      ring
    · -- coefficient at [0, 4, 0, 0]
      rw [coeffOf_cons_false [4, 0, 0, 0] [0, 4, 0, 0] rfl,
        coeffOf_cons_false [3, 1, 0, 0] [0, 4, 0, 0] rfl,
        coeffOf_cons_false [2, 2, 0, 0] [0, 4, 0, 0] rfl,
        coeffOf_cons_false [3, 1, 0, 0] [0, 4, 0, 0] rfl,
        coeffOf_cons_false [2, 2, 0, 0] [0, 4, 0, 0] rfl,
        coeffOf_cons_false [1, 3, 0, 0] [0, 4, 0, 0] rfl,
        coeffOf_cons_false [2, 2, 0, 0] [0, 4, 0, 0] rfl,
        coeffOf_cons_false [1, 3, 0, 0] [0, 4, 0, 0] rfl,
        coeffOf_cons_true [0, 4, 0, 0] [0, 4, 0, 0] rfl,
        coeffOf_cons_false [4, 0, 0, 0] [0, 4, 0, 0] rfl,
        coeffOf_cons_false [3, 1, 0, 0] [0, 4, 0, 0] rfl,
        coeffOf_cons_false [2, 2, 0, 0] [0, 4, 0, 0] rfl,
        coeffOf_cons_false [3, 1, 0, 0] [0, 4, 0, 0] rfl,
        coeffOf_cons_false [2, 2, 0, 0] [0, 4, 0, 0] rfl,
        coeffOf_cons_false [1, 3, 0, 0] [0, 4, 0, 0] rfl,
        coeffOf_cons_false [2, 2, 0, 0] [0, 4, 0, 0] rfl,
        coeffOf_cons_false [1, 3, 0, 0] [0, 4, 0, 0] rfl,
        coeffOf_cons_true [0, 4, 0, 0] [0, 4, 0, 0] rfl,
        coeffOf_nil]
      ring
  · intro a40 a30 a20 a10 a00 a21 a11 a01 a02
    obtain ⟨hpd, hmap⟩ := hgenP2 a40 a30 a20 a10 a00 a21 a11 a01 a02
    refine ⟨_, a21^2 - 4*(a40*a02), (2*(a21*a11) - 4*(a30*a02))/4,
      (a11^2 + 2*(a21*a01) - 4*(a20*a02))/6, (2*(a11*a01) - 4*(a10*a02))/4,
      a01^2 - 4*(a00*a02), hpd, ?_, ?_, ?_, ?_, ?_, hmap⟩
    · -- coefficient at [4, 0, 0, 0]
      rw [coeffOf_cons_true [4, 0, 0, 0] [4, 0, 0, 0] rfl,
        coeffOf_cons_false [3, 0, 1, 0] [4, 0, 0, 0] rfl,
        coeffOf_cons_false [2, 0, 2, 0] [4, 0, 0, 0] rfl,
        coeffOf_cons_false [3, 0, 1, 0] [4, 0, 0, 0] rfl,
        coeffOf_cons_false [2, 0, 2, 0] [4, 0, 0, 0] rfl,
        coeffOf_cons_false [1, 0, 3, 0] [4, 0, 0, 0] rfl,
        coeffOf_cons_false [2, 0, 2, 0] [4, 0, 0, 0] rfl,
        coeffOf_cons_false [1, 0, 3, 0] [4, 0, 0, 0] rfl,
        coeffOf_cons_false [0, 0, 4, 0] [4, 0, 0, 0] rfl,
        coeffOf_cons_true [4, 0, 0, 0] [4, 0, 0, 0] rfl,
        coeffOf_cons_false [3, 0, 1, 0] [4, 0, 0, 0] rfl,
        coeffOf_cons_false [2, 0, 2, 0] [4, 0, 0, 0] rfl,
        coeffOf_cons_false [1, 0, 3, 0] [4, 0, 0, 0] rfl,
        coeffOf_cons_false [0, 0, 4, 0] [4, 0, 0, 0] rfl,
        coeffOf_nil]
      ring
    · -- coefficient at [3, 0, 1, 0]
      rw [coeffOf_cons_false [4, 0, 0, 0] [3, 0, 1, 0] rfl,
        coeffOf_cons_true [3, 0, 1, 0] [3, 0, 1, 0] rfl,
        coeffOf_cons_false [2, 0, 2, 0] [3, 0, 1, 0] rfl,
        coeffOf_cons_true [3, 0, 1, 0] [3, 0, 1, 0] rfl,
        coeffOf_cons_false [2, 0, 2, 0] [3, 0, 1, 0] rfl,
        coeffOf_cons_false [1, 0, 3, 0] [3, 0, 1, 0] rfl,
        coeffOf_cons_false [2, 0, 2, 0] [3, 0, 1, 0] rfl,
        coeffOf_cons_false [1, 0, 3, 0] [3, 0, 1, 0] rfl,
        coeffOf_cons_false [0, 0, 4, 0] [3, 0, 1, 0] rfl,
        coeffOf_cons_false [4, 0, 0, 0] [3, 0, 1, 0] rfl,
        coeffOf_cons_true [3, 0, 1, 0] [3, 0, 1, 0] rfl,
        coeffOf_cons_false [2, 0, 2, 0] [3, 0, 1, 0] rfl,
        coeffOf_cons_false [1, 0, 3, 0] [3, 0, 1, 0] rfl,
        coeffOf_cons_false [0, 0, 4, 0] [3, 0, 1, 0] rfl,
        coeffOf_nil]
      ring
    · -- coefficient at [2, 0, 2, 0]
      rw [coeffOf_cons_false [4, 0, 0, 0] [2, 0, 2, 0] rfl,
        coeffOf_cons_false [3, 0, 1, 0] [2, 0, 2, 0] rfl,
        coeffOf_cons_true [2, 0, 2, 0] [2, 0, 2, 0] rfl,
        coeffOf_cons_false [3, 0, 1, 0] [2, 0, 2, 0] rfl,
        coeffOf_cons_true [2, 0, 2, 0] [2, 0, 2, 0] rfl,
        coeffOf_cons_false [1, 0, 3, 0] [2, 0, 2, 0] rfl,
        coeffOf_cons_true [2, 0, 2, 0] [2, 0, 2, 0] rfl,
        coeffOf_cons_false [1, 0, 3, 0] [2, 0, 2, 0] rfl,
        coeffOf_cons_false [0, 0, 4, 0] [2, 0, 2, 0] rfl,
        coeffOf_cons_false [4, 0, 0, 0] [2, 0, 2, 0] rfl,
        coeffOf_cons_false [3, 0, 1, 0] [2, 0, 2, 0] rfl,
        coeffOf_cons_true [2, 0, 2, 0] [2, 0, 2, 0] rfl,
        coeffOf_cons_false [1, 0, 3, 0] [2, 0, 2, 0] rfl,
        coeffOf_cons_false [0, 0, 4, 0] [2, 0, 2, 0] rfl,
        coeffOf_nil]
      ring
    · -- coefficient at [1, 0, 3, 0]
      rw [coeffOf_cons_false [4, 0, 0, 0] [1, 0, 3, 0] rfl,
        coeffOf_cons_false [3, 0, 1, 0] [1, 0, 3, 0] rfl,
        coeffOf_cons_false [2, 0, 2, 0] [1, 0, 3, 0] rfl,
        coeffOf_cons_false [3, 0, 1, 0] [1, 0, 3, 0] rfl,
        coeffOf_cons_false [2, 0, 2, 0] [1, 0, 3, 0] rfl,
        coeffOf_cons_true [1, 0, 3, 0] [1, 0, 3, 0] rfl,
        coeffOf_cons_false [2, 0, 2, 0] [1, 0, 3, 0] rfl,
        coeffOf_cons_true [1, 0, 3, 0] [1, 0, 3, 0] rfl,
        coeffOf_cons_false [0, 0, 4, 0] [1, 0, 3, 0] rfl,
        coeffOf_cons_false [4, 0, 0, 0] [1, 0, 3, 0] rfl,
        coeffOf_cons_false [3, 0, 1, 0] [1, 0, 3, 0] rfl,
        coeffOf_cons_false [2, 0, 2, 0] [1, 0, 3, 0] rfl,
        coeffOf_cons_true [1, 0, 3, 0] [1, 0, 3, 0] rfl,
        coeffOf_cons_false [0, 0, 4, 0] [1, 0, 3, 0] rfl,
        coeffOf_nil]
      ring
    · -- coefficient at [0, 0, 4, 0]
      rw [coeffOf_cons_false [4, 0, 0, 0] [0, 0, 4, 0] rfl,
        coeffOf_cons_false [3, 0, 1, 0] [0, 0, 4, 0] rfl,
        coeffOf_cons_false [2, 0, 2, 0] [0, 0, 4, 0] rfl,
        coeffOf_cons_false [3, 0, 1, 0] [0, 0, 4, 0] rfl,
        coeffOf_cons_false [2, 0, 2, 0] [0, 0, 4, 0] rfl,
        coeffOf_cons_false [1, 0, 3, 0] [0, 0, 4, 0] rfl,
        coeffOf_cons_false [2, 0, 2, 0] [0, 0, 4, 0] rfl,
        coeffOf_cons_false [1, 0, 3, 0] [0, 0, 4, 0] rfl,
        coeffOf_cons_true [0, 0, 4, 0] [0, 0, 4, 0] rfl,
        coeffOf_cons_false [4, 0, 0, 0] [0, 0, 4, 0] rfl,
        coeffOf_cons_false [3, 0, 1, 0] [0, 0, 4, 0] rfl,
        coeffOf_cons_false [2, 0, 2, 0] [0, 0, 4, 0] rfl,
        coeffOf_cons_false [1, 0, 3, 0] [0, 0, 4, 0] rfl,
        coeffOf_cons_true [0, 0, 4, 0] [0, 0, 4, 0] rfl,
        coeffOf_nil]
      ring
  · rw [(hgenP1 1 2 3 4 5 6 7 8 0).2]
    refine congrArg Except.ok (Prod.ext ?_ ?_)
    · rw [C_inj, Iquartic]
      norm_num
    · rw [C_inj, Jquartic]
      norm_num
  · rw [(hgenP2 1 1 1 1 1 1 1 1 1).2]
    refine congrArg Except.ok (Prod.ext ?_ ?_)
    · rw [C_inj, Iquartic]
      norm_num
    · rw [C_inj, Jquartic]
      norm_num

/-- C8: whenever WeierstrassForm returns the pair (f, g), Discriminant
applied to the same input returns exactly `4*f^3 + 27*g^2` - a pure
function of the computed Weierstrass coefficients (the second conjunct
reads the returned term list as the ring element it denotes). -/
theorem discriminant_of_weierstrass :
    ∀ (cls : Classifier) (p : Poly) (vars? : Option (List ℕ)) (f g : Poly),
      WeierstrassForm cls p vars? = .ok (f, g) →
      Discriminant cls p vars? = .ok (Qc 4 * f ^ 3 + Qc 27 * g ^ 2)
      ∧ toMv (Qc 4 * f ^ 3 + Qc 27 * g ^ 2)
          = 4 * toMv f ^ 3 + 27 * toMv g ^ 2 := by
  intro cls p v f g h
  constructor
  · rw [Discriminant, h]
  · rw [toMv_add]
    simp only [toMv_mul, toMv_pow, toMv_Qc, map_ofNat]

set_option maxRecDepth 100000 in
theorem discriminant_of_weierstrass_witness :
    WeierstrassForm clsP2id fermatCubic (some [0, 1])
        = .ok ([], [((-27/4 : ℚ), [0, 0])])
    ∧ (Discriminant clsP2id fermatCubic (some [0, 1])
          = .ok (Qc 4 * ([] : Poly) ^ 3 + Qc 27 * [((-27/4 : ℚ), [0, 0])] ^ 2)
      ∧ toMv (Qc 4 * ([] : Poly) ^ 3 + Qc 27 * [((-27/4 : ℚ), [0, 0])] ^ 2)
          = 4 * toMv ([] : Poly) ^ 3 + 27 * toMv [((-27/4 : ℚ), [0, 0])] ^ 2) :=
  ⟨by with_unfolding_all decide,
    discriminant_of_weierstrass clsP2id fermatCubic (some [0, 1]) _ _
      (by with_unfolding_all decide)⟩

/-- C7: whenever WeierstrassForm returns (f, g), with discriminant
`Δ = 4*f^3 + 27*g^2`: j_invariant returns the ring fraction
`1728*4*f^3 / Δ` when `Δ ≠ 0`, the distinguished infinity sentinel when
`Δ = 0` but `f ≠ 0`, and fails with UndefinedJInvariant exactly when
`Δ = 0` and `f = 0` - which is equivalent to `f = g = 0`. -/
theorem j_invariant_cases :
    ∀ (cls : Classifier) (p : Poly) (vars? : Option (List ℕ)) (f g : Poly),
      WeierstrassForm cls p vars? = .ok (f, g) →
      ((isZeroP (Qc 4 * f ^ 3 + Qc 27 * g ^ 2) = false →
          j_invariant cls p vars?
            = .ok (.fin (Qc 1728 * (Qc 4 * f ^ 3)) (Qc 4 * f ^ 3 + Qc 27 * g ^ 2)))
        ∧ (isZeroP (Qc 4 * f ^ 3 + Qc 27 * g ^ 2) = true → isZeroP f = false →
            j_invariant cls p vars? = .ok .inf)
        ∧ (isZeroP (Qc 4 * f ^ 3 + Qc 27 * g ^ 2) = true → isZeroP f = true →
            j_invariant cls p vars? = .error .UndefinedJInvariant)
        ∧ ((isZeroP (Qc 4 * f ^ 3 + Qc 27 * g ^ 2) = true ∧ isZeroP f = true)
            ↔ (isZeroP f = true ∧ isZeroP g = true))) := by
  intro cls p v f g h
  refine ⟨?_, ?_, ?_, ?_⟩
  · intro hd
    simp only [j_invariant, h]
    rw [if_pos hd]
  · intro hd hf
    simp only [j_invariant, h]
    rw [if_neg (by rw [hd]; exact fun hc => Bool.noConfusion hc), if_pos hf]
  · intro hd hf
    simp only [j_invariant, h]
    rw [if_neg (by rw [hd]; exact fun hc => Bool.noConfusion hc),
      if_neg (by rw [hf]; exact fun hc => Bool.noConfusion hc)]
  · constructor
    · rintro ⟨hd, hf⟩
      refine ⟨hf, ?_⟩
      rw [isZeroP_iff] at hd hf ⊢
      rw [toMv_add] at hd
      simp only [toMv_mul, toMv_pow, toMv_Qc, map_ofNat, hf] at hd
      rw [zero_pow (by norm_num), mul_zero, zero_add] at hd
      rcases mul_eq_zero.mp hd with h27 | hg2
      · exact absurd h27 (by norm_num)
      · exact (pow_eq_zero_iff (by norm_num)).mp hg2
    · rintro ⟨hf, hg⟩
      refine ⟨?_, hf⟩
      rw [isZeroP_iff] at hf hg ⊢
      rw [toMv_add]
      simp only [toMv_mul, toMv_pow, toMv_Qc, map_ofNat, hf, hg]
      rw [zero_pow (by norm_num), zero_pow (by norm_num), mul_zero, mul_zero,
        add_zero]

set_option maxRecDepth 100000 in
theorem j_invariant_cases_witness :
    WeierstrassForm clsP2id fermatCubic (some [0, 1])
        = .ok ([], [((-27/4 : ℚ), [0, 0])])
    ∧ isZeroP (Qc 4 * ([] : Poly) ^ 3 + Qc 27 * [((-27/4 : ℚ), [0, 0])] ^ 2) = false
    ∧ j_invariant clsP2id fermatCubic (some [0, 1])
        = .ok (.fin (Qc 1728 * (Qc 4 * ([] : Poly) ^ 3))
            (Qc 4 * ([] : Poly) ^ 3 + Qc 27 * [((-27/4 : ℚ), [0, 0])] ^ 2)) :=
  ⟨by with_unfolding_all decide, by with_unfolding_all decide,
    (j_invariant_cases clsP2id fermatCubic (some [0, 1]) _ _
        (by with_unfolding_all decide)).1
      (by with_unfolding_all decide)⟩

end ToricW
